import Mathlib

/-!
A2-A4-RSRQ handover algorithm with dwell-time lock-out.

Shallow embedding of `src/lte/model/a2-a4-rsrq-handover-algorithm.cc`.

Conventions of the embedding.

* `std::map<K, V>` is a list of key/value pairs; iteration order of the map is
  the order of the list.  `StdMap.insert` keeps ascending key order, so every
  map built from the empty map by the operations below is strictly ascending
  (`StdMap.WF`).  Lookup results never depend on that invariant.
* `uint8_t` / `uint16_t` values are natural numbers.  The source performs no
  arithmetic on them except the subtraction on line 349, which C++ carries out
  after promotion to `int`; it is modelled in `Int`.
* `int` is the 32-bit two's-complement type.  The addition of line 364 is
  `intAdd`, the sum reduced modulo `2 ^ 32` into `[intMin, intMax]`: signed
  overflow is undefined in C++ and the model takes what the addition
  instruction yields.  A conversion from `double` to `int` is `doubleToInt`:
  the fractional part is discarded, and a value outside `[intMin, intMax]`,
  for which the conversion is undefined in C++, gives `intMin`, as the x86-64
  conversion instruction does.
* A finite `double` is the rational it denotes.  `toDouble` rounds a rational
  to IEEE 754 binary64 (round to nearest, ties to even, subnormal numbers
  included); it is applied where line 216 converts the text of a number and
  where it multiplies.  A result of magnitude `2 ^ 1024` or more stands for an
  infinity.  Line 289 is taken in exact arithmetic, see `currTimeBucket`.
* `Env.dwellFile` holds the lines of a dataset file on every line of which
  `std::stoi` and `std::stod` succeed (`DwellRow.WellFormed`).  On any other
  file the source ends with an uncaught exception; such files are outside the
  model.
* The process-wide variables `printableData`, `inputData`, `modelConventional`
  and `lockedUntilTime` (lines 52-56) and the member `m_neighbourCellMeasures`
  form the state `Engine`; calls of
  `m_handoverManagementSapUser->TriggerHandover` are returned as a list.
* Declarations of `CandidateBaseStations` that the source uses but that are not
  part of the available header (`indexToIdStationsMap`), the content of the
  dataset file, the random device and the build flag that enables `NS_ASSERT`
  are fields of `Env`.
* `std::uniform_int_distribution<int>(min, max)` is taken by its contract, a
  value in `[min, max]`: the raw value of the device reduced into that range.
  `Engine.drawn` counts the values taken from the device.
* The time bucket `currTime` of line 289 is an argument of `EvaluateHandover`
  and `DoReportUeMeas`; its computation from the clock is `currTimeBucket`.
* Log output (`NS_LOG_*`) and the files written by `logCandidateBaseStations`
  and `logHandovers` are not part of the state; the pairs logged on lines
  331-332 are kept in `LoopState.dwellLog`.
-/

namespace A2A4

/-! ## `std::map` -/

/-- Ordered map as a list of key/value pairs, in iteration order. -/
abbrev StdMap (κ : Type) (ν : Type) := List (κ × ν)

namespace StdMap

variable {κ ν : Type}

/-- Member function `find`: the value stored under `k`, if any. -/
def find [DecidableEq κ] : StdMap κ ν → κ → Option ν
  | [], _ => none
  | (a, b) :: rest, k => if a = k then some b else find rest k

/-- Assignment `m[k] = v`: overwrite the entry of `k`, or add one at its place
in ascending key order. -/
def insert [DecidableEq κ] [LT κ] [DecidableRel (fun (a b : κ) => a < b)] :
    StdMap κ ν → κ → ν → StdMap κ ν
  | [], k, v => [(k, v)]
  | (a, b) :: rest, k, v =>
    if a = k then (k, v) :: rest
    else if k < a then (k, v) :: (a, b) :: rest
    else (a, b) :: insert rest k v

/-- Keys in iteration order. -/
def keys (m : StdMap κ ν) : List κ := m.map Prod.fst

/-- Representation invariant of `std::map`: keys strictly ascending. -/
def WF [LT κ] (m : StdMap κ ν) : Prop := List.Pairwise (fun a b => a < b) (keys m)

end StdMap

/-! ## Data model -/

/-- Measurement sample `UeMeasure` stored per neighbour cell. -/
structure UeMeasure where
  m_cellId : Nat
  m_rsrp : Nat
  m_rsrq : Nat
  deriving DecidableEq, Repr

/-- Type `MeasurementRow_t`: cell id to sample. -/
abbrev MeasurementRow_t := StdMap Nat UeMeasure

/-- Type `MeasurementTable_t`: RNTI to row. -/
abbrev MeasurementTable_t := StdMap Nat MeasurementRow_t

/-- Type of `inputData`: time bucket to base-station id to dwell seconds. -/
abbrev DwellData := StdMap Int (StdMap Int Int)

/-- One line `timeBucket,baseStationId,dwellMinutes` of the dataset file:
the numbers written in its three fields. -/
structure DwellRow where
  t : Int
  baseStationId : Int
  dwellMinutes : ℚ

/-- Everything the algorithm reads but does not own. -/
structure Env where
  /-- measurement identity returned for the A2 report configuration -/
  m_a2MeasId : Nat
  /-- measurement identity returned for the A4 report configuration -/
  m_a4MeasId : Nat
  /-- attribute `ServingCellThreshold` -/
  m_servingCellThreshold : Nat
  /-- attribute `NeighbourCellOffset` -/
  m_neighbourCellOffset : Nat
  /-- registry `CandidateBaseStations::indexToIdStationsMap` -/
  indexToIdStationsMap : Nat → Int
  /-- lines of `input-dwell-time.csv`; empty when the file cannot be opened -/
  dwellFile : List DwellRow
  /-- successive raw outputs of the random device -/
  rand : Nat → Nat
  /-- whether `NS_ASSERT` / `NS_ASSERT_MSG` are compiled in -/
  assertEnabled : Bool

/-- Mutable state of the algorithm. -/
structure Engine where
  m_neighbourCellMeasures : MeasurementTable_t
  inputData : DwellData
  printableData : StdMap Int (List Nat)
  modelConventional : Bool
  lockedUntilTime : Int
  /-- number of values taken from the random device so far -/
  drawn : Nat
  deriving DecidableEq, Repr

/-- State at program start (lines 53-56, empty measurement table). -/
def Engine.initial : Engine :=
  { m_neighbourCellMeasures := []
    inputData := []
    printableData := []
    modelConventional := true
    lockedUntilTime := -1
    drawn := 0 }

/-- A recorded call `TriggerHandover(rnti, targetCellId)`. -/
abbrev HandoverCall := Nat × Nat

/-! ## Machine numbers -/

/-- Least value of `int`. -/
def intMin : Int := -2147483648

/-- Greatest value of `int`. -/
def intMax : Int := 2147483647

/-- Reduction of an integer modulo `2 ^ 32` into `[intMin, intMax]`. -/
def wrapInt (x : Int) : Int := (x + 2147483648) % 4294967296 - 2147483648

/-- Addition of two `int` values. -/
def intAdd (a b : Int) : Int := wrapInt (a + b)

/-- Scaling of the positive rational `n / d * 2 ^ e` until `n / d` lies in
`[2 ^ 52, 2 ^ 53)`, the range of a 53-bit significand, or until `e` has reached
the exponent `-1074` of the subnormal numbers. -/
def scaleSignificand : Nat → Nat → Nat → Int → Nat × Nat × Int
  | 0, n, d, e => (n, d, e)
  | fuel + 1, n, d, e =>
    if n < 2 ^ 52 * d then
      if e ≤ -1074 then (n, d, e) else scaleSignificand fuel (2 * n) d (e - 1)
    else if 2 ^ 53 * d ≤ n then scaleSignificand fuel n (2 * d) (e + 1)
    else (n, d, e)

/-- Nearest natural number to `n / d`, a tie going to the even one. -/
def roundHalfEven (n d : Nat) : Nat :=
  if 2 * (n % d) < d then n / d
  else if d < 2 * (n % d) then n / d + 1
  else if (n / d) % 2 = 0 then n / d else n / d + 1

/-- Significand and exponent of the binary64 number nearest to `p / q`.  The
2200 scaling steps allowed are enough for every `p / q` below `2 ^ 2252`, far
beyond the greatest `double`; downwards the scaling ends by itself at the
exponent `-1074`. -/
def doubleParts (p q : Nat) : Nat × Int :=
  if p = 0 then (0, 0)
  else
    (roundHalfEven (scaleSignificand 2200 p q 0).1 (scaleSignificand 2200 p q 0).2.1,
      (scaleSignificand 2200 p q 0).2.2)

/-- Rounding of a rational to binary64: what `std::stod` yields for the text
of the number `x`, and what a `double` operation yields for the exact result
`x`. -/
def toDouble (x : ℚ) : ℚ :=
  if 0 ≤ x.num then
    ((doubleParts x.num.natAbs x.den).1 : ℚ) * 2 ^ (doubleParts x.num.natAbs x.den).2
  else
    -(((doubleParts x.num.natAbs x.den).1 : ℚ) * 2 ^ (doubleParts x.num.natAbs x.den).2)

/-- C library `round`: nearest integer, halves away from zero. -/
def cRound (x : ℚ) : Int :=
  if 0 ≤ x.num then (2 * x.num + x.den) / (2 * x.den)
  else -((2 * (-x.num) + x.den) / (2 * x.den))

/-- Integer part of a `double`: the fractional part is discarded. -/
def truncToInt (x : ℚ) : Int :=
  if 0 ≤ x.num then x.num / x.den else -((-x.num) / x.den)

/-- Conversion of a `double` to `int`. -/
def doubleToInt (x : ℚ) : Int :=
  if intMin ≤ truncToInt x ∧ truncToInt x ≤ intMax then truncToInt x else intMin

/-! ## Dataset -/

/-- A line on which neither `std::stoi` nor `std::stod` throws: both integers
are `int` values and the number of minutes is `0` or, in magnitude, within the
range of the normal `double` numbers. -/
def DwellRow.WellFormed (r : DwellRow) : Prop :=
  intMin ≤ r.t ∧ r.t ≤ intMax ∧ intMin ≤ r.baseStationId ∧ r.baseStationId ≤ intMax ∧
    (r.dwellMinutes = 0 ∨
      ((2 : ℚ) ^ (-1022 : Int) ≤ |r.dwellMinutes| ∧ |r.dwellMinutes| < (2 : ℚ) ^ (1023 : Nat)))

/-- Value of `round(std::stod(part) * 60)` on line 216 for the number `m`
written in the third field: the text is converted to a `double`, the product is
a `double` multiplication, and `round` is exact. -/
def roundedSeconds (m : ℚ) : Int :=
  cRound (toDouble (toDouble m * 60))

/-- Expression `static_cast<int>(round(std::stod(part) * 60))` of line 216 for
the number `m` written in the third field. -/
def dwellSeconds (m : ℚ) : Int :=
  doubleToInt ((roundedSeconds m : Int) : ℚ)

/-- Entry of a dwell dataset at `(t, baseStationId)`, if recorded. -/
def DwellData.get (d : DwellData) (t bs : Int) : Option Int :=
  (StdMap.find d t).bind (fun inner => StdMap.find inner bs)

/-- Statement `printableData[t][baseStationId] = dwellTime` (line 218) and its
like: nested assignment, creating the inner map when `t` is new. -/
def DwellData.set (d : DwellData) (t bs v : Int) : DwellData :=
  StdMap.insert d t (StdMap.insert ((StdMap.find d t).getD []) bs v)

/-- Function `parseDwellTimeData` (lines 194-235): one assignment per line of
the file, in file order, starting from the empty map; the value assigned is
the `int` of line 216.  `file` holds the lines of a file on which no
conversion throws; a file that cannot be opened is the empty list. -/
def parseDwellTimeData (file : List DwellRow) : DwellData :=
  file.foldl (fun acc row => acc.set row.t row.baseStationId (dwellSeconds row.dwellMinutes)) []

/-- Function `getRandomNumber` (lines 276-284): a value of the uniform integer
distribution on `[min, max]`, obtained from the raw value `raw` of the
device. -/
def getRandomNumber (min max : Int) (raw : Nat) : Int :=
  min + ((raw : Int) % (max - min + 1))

/-- Lines 320-324: `dwellTime = inputData[currTime][baseStationId]`, replaced
and written back by a random value in `[10, 20]` when it is `0` (which is also
what `operator[]` yields, and stores, for a key not yet present).  Returns the
final `dwellTime`, the dataset and the number of random values drawn. -/
def dwellLookup (env : Env) (d : DwellData) (drawn : Nat) (currTime baseStationId : Int) :
    Int × DwellData × Nat :=
  let dwellTime := (d.get currTime baseStationId).getD 0
  if dwellTime = 0 then
    let r := getRandomNumber 10 20 (env.rand drawn)
    (r, d.set currTime baseStationId r, drawn + 1)
  else
    (dwellTime, d, drawn)

/-- Dataset and number of random values drawn after successive dwell lookups
at the keys `ks`, in order. -/
def dwellLookups (env : Env) (d : DwellData) (drawn : Nat) (ks : List (Int × Int)) :
    DwellData × Nat :=
  ks.foldl (fun acc k =>
      ((dwellLookup env acc.1 acc.2 k.1 k.2).2.1, (dwellLookup env acc.1 acc.2 k.1 k.2).2.2))
    (d, drawn)

/-! ## Handover evaluation -/

/-- Function `IsValidNeighbour` (lines 378-390). -/
def IsValidNeighbour (_cellId : Nat) : Bool := true

/-- Variables live across the loop of lines 317-342. -/
structure LoopState where
  inputData : DwellData
  printableData : StdMap Int (List Nat)
  drawn : Nat
  bestNeighbourCellId : Nat
  bestNeighbourRsrq : Nat
  /-- pairs (neighbour, dwell time) written to the log on lines 331-332 -/
  dwellLog : List (Nat × Int)
  deriving DecidableEq, Repr

/-- Statement `printableData[currTime].insert(cellId)` (line 327) on a
`std::set<int>` kept as an ascending list. -/
def printableInsert (p : StdMap Int (List Nat)) (currTime : Int) (cellId : Nat) :
    StdMap Int (List Nat) :=
  let old := (StdMap.find p currTime).getD []
  StdMap.insert p currTime (if cellId ∈ old then old else List.orderedInsert (fun a b => a ≤ b) cellId old)

/-- Body of the loop of lines 317-342 for the map entry `it2`. -/
def loopBody (env : Env) (currTime : Int) (st : LoopState) (it2 : Nat × UeMeasure) : LoopState :=
  let baseStationId := env.indexToIdStationsMap it2.1
  let r := dwellLookup env st.inputData st.drawn currTime baseStationId
  let better : Bool := decide (it2.2.m_rsrq > st.bestNeighbourRsrq) && IsValidNeighbour it2.1
  { inputData := r.2.1
    printableData := printableInsert st.printableData currTime it2.1
    drawn := r.2.2
    bestNeighbourCellId := if better then it2.1 else st.bestNeighbourCellId
    bestNeighbourRsrq := if better then it2.2.m_rsrq else st.bestNeighbourRsrq
    dwellLog := st.dwellLog ++ [(it2.1, r.1)] }

/-- Loop of lines 311-342 over the neighbour map `row` of the endpoint. -/
def selectionLoop (env : Env) (currTime : Int) (s : Engine) (row : MeasurementRow_t) : LoopState :=
  row.foldl (loopBody env currTime)
    { inputData := s.inputData
      printableData := s.printableData
      drawn := s.drawn
      bestNeighbourCellId := 0
      bestNeighbourRsrq := 0
      dwellLog := [] }

/-- Lines 291-295: lazy load of the dataset. -/
def loadIfNeeded (env : Env) (s : Engine) : Engine :=
  if !s.modelConventional && s.inputData.length == 0 then
    { s with inputData := parseDwellTimeData env.dwellFile }
  else s

/-- Read `inputData[currTime][baseStationId]` on line 364: `operator[]` stores
`0` under a key that is not present and yields the stored value. -/
def dwellIndex (d : DwellData) (currTime baseStationId : Int) : Int × DwellData :=
  match d.get currTime baseStationId with
  | some v => (v, d)
  | none => (0, d.set currTime baseStationId 0)

/-- Function `EvaluateHandover` (lines 286-376).  `currTime` is the value of
the local variable of that name computed on line 289 from the simulator clock.
Returns the state afterwards and the calls of `TriggerHandover` made. -/
def EvaluateHandover (env : Env) (s : Engine) (currTime : Int) (rnti servingCellRsrq : Nat) :
    Engine × List HandoverCall :=
  let s1 := loadIfNeeded env s
  match StdMap.find s1.m_neighbourCellMeasures rnti with
  | none => (s1, [])
  | some row =>
    let l := selectionLoop env currTime s1 row
    let s2 : Engine := { s1 with inputData := l.inputData, printableData := l.printableData, drawn := l.drawn }
    if l.bestNeighbourCellId > 0 then
      if ((l.bestNeighbourRsrq : Int) - (servingCellRsrq : Int)) ≥ (env.m_neighbourCellOffset : Int) then
        if currTime < s2.lockedUntilTime then
          (s2, [])
        else
          let s3 : Engine :=
            if !s2.modelConventional then
              let r := dwellIndex s2.inputData currTime (env.indexToIdStationsMap l.bestNeighbourCellId)
              { s2 with inputData := r.2, lockedUntilTime := intAdd currTime r.1 }
            else s2
          (s3, [(rnti, l.bestNeighbourCellId)])
      else (s2, [])
    else (s2, [])

/-! ## Measurement store and report dispatch -/

/-- Function `UpdateNeighbourMeasurements` (lines 392-431). -/
def UpdateNeighbourMeasurements (s : Engine) (rnti cellId rsrq : Nat) : Engine :=
  let tbl := s.m_neighbourCellMeasures
  -- lines 399-407: insert a new UE entry when there is none
  let tbl1 : MeasurementTable_t :=
    match StdMap.find tbl rnti with
    | none => StdMap.insert tbl rnti []
    | some _ => tbl
  let row : MeasurementRow_t := (StdMap.find tbl1 rnti).getD []
  let row1 : MeasurementRow_t :=
    match StdMap.find row cellId with
    | some m =>
      -- lines 416-419: the existing sample is overwritten field by field
      StdMap.insert row cellId { m with m_cellId := cellId, m_rsrp := 0, m_rsrq := rsrq }
    | none =>
      -- lines 424-428: a new sample is created and stored
      StdMap.insert row cellId { m_cellId := cellId, m_rsrp := 0, m_rsrq := rsrq }
  { s with m_neighbourCellMeasures := StdMap.insert tbl1 rnti row1 }

/-- Element `LteRrcSap::MeasResultEutra` of a report. -/
structure MeasResultEutra where
  physCellId : Nat
  haveRsrqResult : Bool
  rsrqResult : Nat
  deriving DecidableEq, Repr

/-- Report `LteRrcSap::MeasResults`. -/
structure MeasResults where
  measId : Nat
  rsrqResult : Nat
  haveMeasResultNeighCells : Bool
  measResultListEutra : List MeasResultEutra
  deriving DecidableEq, Repr

/-- Loop of lines 169-177; `none` when an enabled assertion fails and the
program is aborted. -/
def updateAll (env : Env) (rnti : Nat) : Engine → List MeasResultEutra → Option Engine
  | s, [] => some s
  | s, it :: rest =>
    if env.assertEnabled && !it.haveRsrqResult then none
    else updateAll env rnti (UpdateNeighbourMeasurements s rnti it.physCellId it.rsrqResult) rest

/-- Function `DoReportUeMeas` (lines 154-190) run when the time bucket of line
289 is `currTime`; `none` when an enabled assertion fails and the program is
aborted. -/
def DoReportUeMeas (env : Env) (s : Engine) (currTime : Int) (rnti : Nat) (measResults : MeasResults) :
    Option (Engine × List HandoverCall) :=
  if measResults.measId = env.m_a2MeasId then
    if env.assertEnabled && !decide (measResults.rsrqResult ≤ env.m_servingCellThreshold) then none
    else some (EvaluateHandover env s currTime rnti measResults.rsrqResult)
  else if measResults.measId = env.m_a4MeasId then
    if measResults.haveMeasResultNeighCells && !measResults.measResultListEutra.isEmpty then
      (updateAll env rnti s measResults.measResultListEutra).map (fun s1 => (s1, []))
    else some (s, [])
  else some (s, [])

/-- An inbound report together with the time bucket of line 289 at which it is
processed. -/
structure ReportEvent where
  currTime : Int
  rnti : Nat
  measResults : MeasResults
  deriving DecidableEq, Repr

/-- Successive calls of `DoReportUeMeas`, one per event and in order; the
calls of `TriggerHandover` are collected.  `none` when the program is aborted
by an enabled assertion. -/
def processEvents (env : Env) : Engine → List ReportEvent → Option (Engine × List HandoverCall)
  | s, [] => some (s, [])
  | s, ev :: rest =>
    match DoReportUeMeas env s ev.currTime ev.rnti ev.measResults with
    | none => none
    | some (s1, calls) =>
      match processEvents env s1 rest with
      | none => none
      | some (s2, calls2) => some (s2, calls ++ calls2)

/-! ## Time bucket -/

/-- Line 289: `int currTime = round(now / timeDifference) * timeDifference`,
with `now` the value of `Simulator::Now().GetSeconds()`.  The declaration of
`CandidateBaseStations::timeDifference` is not part of the available header; it
is a parameter of type `int`, the type of the bucket and of the time column of
the dataset.  The quotient and the product are the exact ones, without the
rounding of the `double` operations; the conversion to `int` is
`doubleToInt`. -/
def currTimeBucket (now : ℚ) (timeDifference : Int) : Int :=
  doubleToInt ((cRound (now / (timeDifference : ℚ)) : ℚ) * (timeDifference : ℚ))

/-- Sample stored in a measurement table for endpoint `rnti` and cell
`cellId`, if any. -/
def sampleAt (tbl : MeasurementTable_t) (rnti cellId : Nat) : Option UeMeasure :=
  (StdMap.find tbl rnti).bind (fun row => StdMap.find row cellId)

/-! ## Concrete scenarios -/

/-- Default configuration (constructor, lines 62-68) with the A2 and A4 reports
registered under the identities 1 and 2, an identity registry, no dataset file
and a random device that always yields `0`. -/
def envA : Env :=
  { m_a2MeasId := 1
    m_a4MeasId := 2
    m_servingCellThreshold := 30
    m_neighbourCellOffset := 1
    indexToIdStationsMap := fun c => (c : Int)
    dwellFile := []
    rand := fun _ => 0
    assertEnabled := true }

/-- State of Scenario A: endpoint 1 has reported cell 7 with RSRQ 15. -/
def stA : Engine := UpdateNeighbourMeasurements Engine.initial 1 7 15

/-- Configuration of Scenario D: as `envA` with offset 5. -/
def envD : Env := { envA with m_neighbourCellOffset := 5 }

/-- State of Scenario D: endpoint 1 has reported cells 7 (RSRQ 12) and 9
(RSRQ 20). -/
def stD : Engine :=
  UpdateNeighbourMeasurements (UpdateNeighbourMeasurements Engine.initial 1 7 12) 1 9 20

/-- Scenario A with cell id 0 in place of 7: endpoint 1 has reported cell 0
with RSRQ 15. -/
def stZeroCell : Engine := UpdateNeighbourMeasurements Engine.initial 1 0 15

/-- Configuration as `envA` with offset 0. -/
def envZeroOffset : Env := { envA with m_neighbourCellOffset := 0 }

/-- Endpoint 1 has reported cell 7 with RSRQ 0. -/
def stZeroRsrq : Engine := UpdateNeighbourMeasurements Engine.initial 1 7 0

/-- Scenario A followed by a second report of cell 7, now with RSRQ 20. -/
def stAOverwritten : Engine := UpdateNeighbourMeasurements stA 1 7 20

/-- Configuration as `envA` with a dataset file of the single line `5,3,0.5`. -/
def envFile : Env := { envA with dwellFile := [⟨5, 3, 1 / 2⟩] }

/-- Start state switched to predictive mode: no endpoint has reported yet and
the dataset has not been loaded. -/
def stPredictiveStart : Engine := { Engine.initial with modelConventional := false }

/-- Configuration as `envA` built without assertions. -/
def envNoAssert : Env := { envA with assertEnabled := false }

/-- Endpoint 1 has reported cell 7 with RSRQ 34. -/
def stStrong : Engine := UpdateNeighbourMeasurements Engine.initial 1 7 34

/-- An A2 report (identity 1) with serving RSRQ 31, above the threshold 30. -/
def reportAbove : MeasResults :=
  { measId := 1, rsrqResult := 31, haveMeasResultNeighCells := false, measResultListEutra := [] }

/-- A report with identity 9, which is neither the A2 nor the A4 identity of
`envA`, carrying a neighbour list. -/
def reportUnknown : MeasResults :=
  { measId := 9, rsrqResult := 10, haveMeasResultNeighCells := true
    measResultListEutra := [⟨7, true, 34⟩] }

/-- Configuration as `envD` with a dataset file of the single line `100,9,2`
and a random device that always yields 7. -/
def envDOther : Env := { envD with dwellFile := [⟨100, 9, 2⟩], rand := fun _ => 7 }

/-- Scenario D in predictive mode. -/
def stDPredictive : Engine := { stD with modelConventional := false }

/-- A neighbour report (identity 2) for cells 7 and 9. -/
def reportNeighbours : MeasResults :=
  { measId := 2, rsrqResult := 0, haveMeasResultNeighCells := true
    measResultListEutra := [⟨7, true, 15⟩, ⟨9, true, 20⟩] }

/-- An A2 report (identity 1) with serving RSRQ 10. -/
def reportServing : MeasResults :=
  { measId := 1, rsrqResult := 10, haveMeasResultNeighCells := false, measResultListEutra := [] }

/-- A run in disabled mode: endpoint 1 reports its neighbours at bucket 90,
its serving cell degrades at bucket 100 and an unknown report arrives at
bucket 105. -/
def eventsDisabled : List ReportEvent :=
  [⟨90, 1, reportNeighbours⟩, ⟨100, 1, reportServing⟩, ⟨105, 1, reportUnknown⟩]

/-- Endpoint 1 has reported cell 0 with RSRQ 5. -/
def stZeroCellFive : Engine := UpdateNeighbourMeasurements Engine.initial 1 0 5

/-- Endpoint 1 has reported cell 0 with RSRQ 20 and cell 7 with RSRQ 15. -/
def stZeroBest : Engine :=
  UpdateNeighbourMeasurements (UpdateNeighbourMeasurements Engine.initial 1 0 20) 1 7 15

namespace StdMap

variable {κ ν : Type}

theorem find_insert_self [DecidableEq κ] [LT κ] [DecidableRel (fun (a b : κ) => a < b)]
    (m : StdMap κ ν) (k : κ) (v : ν) : find (insert m k v) k = some v := by
  induction m with
  | nil => simp [insert, find]
  | cons hd tl ih =>
    obtain ⟨a, b⟩ := hd
    by_cases h1 : a = k
    · simp [insert, find, h1]
    · by_cases h2 : k < a
      · simp [insert, find, h1, h2]
      · simp [insert, find, h1, h2, ih]

theorem find_insert_ne [DecidableEq κ] [LT κ] [DecidableRel (fun (a b : κ) => a < b)]
    (m : StdMap κ ν) (k k' : κ) (v : ν) (hne : k' ≠ k) :
    find (insert m k v) k' = find m k' := by
  induction m with
  | nil => simp [insert, find, Ne.symm hne]
  | cons hd tl ih =>
    obtain ⟨a, b⟩ := hd
    by_cases h1 : a = k
    · have h3 : a ≠ k' := fun h => hne (h ▸ h1)
      simp [insert, find, h1, h3, Ne.symm hne]
    · by_cases h2 : k < a
      · simp [insert, find, h1, h2, Ne.symm hne]
      · simp [insert, find, h1, h2, ih]

theorem keys_insert_mem (m : StdMap Nat ν) (k : Nat) (v : ν) (x : Nat)
    (hx : x ∈ keys (insert m k v)) : x = k ∨ x ∈ keys m := by
  induction m with
  | nil => simpa [insert, keys] using hx
  | cons hd tl ih =>
    obtain ⟨a, b⟩ := hd
    by_cases h1 : a = k
    · simp [insert, keys, h1] at hx ⊢
      tauto
    · by_cases h2 : k < a
      · simp [insert, keys, h1, h2] at hx ⊢
        tauto
      · simp only [insert, h1, h2, if_false, keys, List.map_cons, List.mem_cons] at hx ⊢
        rcases hx with hx | hx
        · exact Or.inr (Or.inl hx)
        · rcases ih hx with h | h
          · exact Or.inl h
          · exact Or.inr (Or.inr h)

theorem wf_insert (m : StdMap Nat ν) (k : Nat) (v : ν) (hwf : WF m) : WF (insert m k v) := by
  induction m with
  | nil => simp [insert, WF, keys]
  | cons hd tl ih =>
    obtain ⟨a, b⟩ := hd
    have hcons : (∀ y ∈ keys tl, a < y) ∧ WF tl := by
      simpa [WF, keys] using hwf
    by_cases h1 : a = k
    · subst h1
      simpa [insert, WF, keys] using hwf
    · by_cases h2 : k < a
      · have h3 : ∀ y ∈ keys tl, k < y := fun y hy => lt_trans h2 (hcons.1 y hy)
        simp only [insert, h1, h2, if_false, if_true, WF, keys, List.map_cons,
          List.pairwise_cons, List.mem_cons]
        refine ⟨?_, ?_, ?_⟩
        · intro y hy
          rcases hy with hy | hy
          · exact hy ▸ h2
          · exact h3 y hy
        · exact hcons.1
        · exact hcons.2
      · have h4 : a < k := lt_of_le_of_ne (Nat.le_of_not_lt h2) h1
        simp only [insert, h1, h2, if_false, WF, keys, List.map_cons, List.pairwise_cons]
        refine ⟨?_, ih hcons.2⟩
        intro y hy
        rcases keys_insert_mem tl k v y hy with h | h
        · exact h ▸ h4
        · exact hcons.1 y h

theorem wf_nodup (m : StdMap Nat ν) (hwf : WF m) : (keys m).Nodup := by
  unfold WF at hwf
  exact hwf.imp (fun h => Nat.ne_of_lt h)

end StdMap

/-! ## Lemmas on machine numbers -/

/-- The result of an `int` addition is an `int` value. -/
theorem intAdd_range (a b : Int) : intMin ≤ intAdd a b ∧ intAdd a b ≤ intMax := by
  unfold intAdd wrapInt intMin intMax
  omega

theorem truncToInt_intCast (z : Int) : truncToInt (z : ℚ) = z := by
  unfold truncToInt
  simp

/-- An integer that is an `int` value is converted to itself. -/
theorem doubleToInt_intCast (z : Int) (hlo : intMin ≤ z) (hhi : z ≤ intMax) :
    doubleToInt (z : ℚ) = z := by
  unfold doubleToInt
  rw [truncToInt_intCast, if_pos ⟨hlo, hhi⟩]

theorem doubleParts_1_2 : doubleParts 1 2 = (4503599627370496, -53) := by decide

theorem doubleParts_30_1 : doubleParts 30 1 = (8444249301319680, -48) := by decide

/-- Line 216 at the number one half, written `0.5`. -/
theorem roundedSeconds_half : roundedSeconds (1 / 2) = 30 := by
  have h1 : toDouble (1 / 2) = 1 / 2 := by
    unfold toDouble
    norm_num [doubleParts_1_2]
  have h2 : toDouble (1 / 2 * 60) = 30 := by
    unfold toDouble
    norm_num [doubleParts_30_1]
  unfold roundedSeconds
  rw [h1, h2]
  norm_num [cRound]

theorem dwellSeconds_half : dwellSeconds (1 / 2) = 30 := by
  unfold dwellSeconds
  rw [roundedSeconds_half]
  norm_num [doubleToInt, truncToInt, intMin, intMax]

theorem doubleParts_0_1 : doubleParts 0 1 = (0, 0) := by decide

/-- Line 216 at the number `0`. -/
theorem roundedSeconds_zero : roundedSeconds (0) = 0 := by
  have h1 : toDouble (0) = 0 := by
    unfold toDouble
    norm_num [doubleParts_0_1]
  have h2 : toDouble (0 * 60) = 0 := by
    unfold toDouble
    norm_num [doubleParts_0_1]
  unfold roundedSeconds
  rw [h1, h2]
  norm_num [cRound]

theorem dwellSeconds_zero : dwellSeconds (0) = 0 := by
  unfold dwellSeconds
  rw [roundedSeconds_zero]
  norm_num [doubleToInt, truncToInt, intMin, intMax]

theorem doubleParts_41_40 : doubleParts 41 40 = (4616189618054758, -52) := by decide

theorem doubleParts_34621422135410685_562949953421312 : doubleParts 34621422135410685 562949953421312 = (8655355533852671, -47) := by decide

/-- Line 216 at the number `1.025`. -/
theorem roundedSeconds_1025 : roundedSeconds (41 / 40) = 61 := by
  have h1 : toDouble (41 / 40) = 2308094809027379 / 2251799813685248 := by
    unfold toDouble
    norm_num [doubleParts_41_40]
  have h2 : toDouble (2308094809027379 / 2251799813685248 * 60) = 8655355533852671 / 140737488355328 := by
    unfold toDouble
    norm_num [doubleParts_34621422135410685_562949953421312]
  unfold roundedSeconds
  rw [h1, h2]
  norm_num [cRound]

theorem dwellSeconds_1025 : dwellSeconds (41 / 40) = 61 := by
  unfold dwellSeconds
  rw [roundedSeconds_1025]
  norm_num [doubleToInt, truncToInt, intMin, intMax]

theorem doubleParts_7_40 : doubleParts 7 40 = (6305039478318694, -55) := by decide

theorem doubleParts_47287796087390205_4503599627370496 : doubleParts 47287796087390205 4503599627370496 = (5910974510923776, -49) := by decide

/-- Line 216 at the number `0.175`. -/
theorem roundedSeconds_175 : roundedSeconds (7 / 40) = 11 := by
  have h1 : toDouble (7 / 40) = 3152519739159347 / 18014398509481984 := by
    unfold toDouble
    norm_num [doubleParts_7_40]
  have h2 : toDouble (3152519739159347 / 18014398509481984 * 60) = 21 / 2 := by
    unfold toDouble
    norm_num [doubleParts_47287796087390205_4503599627370496]
  unfold roundedSeconds
  rw [h1, h2]
  norm_num [cRound]

theorem dwellSeconds_175 : dwellSeconds (7 / 40) = 11 := by
  unfold dwellSeconds
  rw [roundedSeconds_175]
  norm_num [doubleToInt, truncToInt, intMin, intMax]

/-- The line `5,3,0.5` is well-formed. -/
theorem wellFormed_half : DwellRow.WellFormed ⟨5, 3, 1 / 2⟩ := by
  refine ⟨by decide, by decide, by decide, by decide, Or.inr ⟨?_, ?_⟩⟩
  · show (2 : ℚ) ^ (-1022 : Int) ≤ |(1 / 2 : ℚ)|
    rw [abs_of_pos (by norm_num), show (1 / 2 : ℚ) = 2 ^ (-1 : Int) by norm_num]
    exact zpow_le_zpow_right₀ (by norm_num) (by norm_num)
  · show |(1 / 2 : ℚ)| < (2 : ℚ) ^ (1023 : Nat)
    rw [abs_of_pos (by norm_num)]
    exact lt_of_lt_of_le (by norm_num) (one_le_pow₀ (by norm_num))

/-- The file of the single line `5,3,0.5`. -/
theorem parseDwellTimeData_half : parseDwellTimeData [⟨5, 3, 1 / 2⟩] = [(5, [(3, 30)])] := by
  simp only [parseDwellTimeData, List.foldl_cons, List.foldl_nil, dwellSeconds_half]
  decide

/-- The file of the single line `5,3,0`. -/
theorem parseDwellTimeData_zero : parseDwellTimeData [⟨5, 3, 0⟩] = [(5, [(3, 0)])] := by
  simp only [parseDwellTimeData, List.foldl_cons, List.foldl_nil, dwellSeconds_zero]
  decide

/-- The file of the single line `5,3,1.025`. -/
theorem parseDwellTimeData_1025 : parseDwellTimeData [⟨5, 3, 41 / 40⟩] = [(5, [(3, 61)])] := by
  simp only [parseDwellTimeData, List.foldl_cons, List.foldl_nil, dwellSeconds_1025]
  decide

theorem loopBody_best_of_gt (env : Env) (T : Int) (st : LoopState) (it2 : Nat × UeMeasure)
    (h : st.bestNeighbourRsrq < it2.2.m_rsrq) :
    (loopBody env T st it2).bestNeighbourCellId = it2.1 ∧
      (loopBody env T st it2).bestNeighbourRsrq = it2.2.m_rsrq := by
  simp [loopBody, IsValidNeighbour, h]

theorem loopBody_best_of_le (env : Env) (T : Int) (st : LoopState) (it2 : Nat × UeMeasure)
    (h : it2.2.m_rsrq ≤ st.bestNeighbourRsrq) :
    (loopBody env T st it2).bestNeighbourCellId = st.bestNeighbourCellId ∧
      (loopBody env T st it2).bestNeighbourRsrq = st.bestNeighbourRsrq := by
  have h' : ¬ st.bestNeighbourRsrq < it2.2.m_rsrq := Nat.not_lt.mpr h
  simp [loopBody, IsValidNeighbour, h']

/-- Result of the loop from any starting pair: either no entry beats the
starting RSRQ and the pair is unchanged, or the pair is the first entry of
maximal RSRQ, which beats the starting RSRQ. -/
theorem foldl_loopBody_best (env : Env) (T : Int) (row : MeasurementRow_t) :
    ∀ st : LoopState,
      ((row.foldl (loopBody env T) st).bestNeighbourCellId = st.bestNeighbourCellId ∧
        (row.foldl (loopBody env T) st).bestNeighbourRsrq = st.bestNeighbourRsrq ∧
        ∀ y ∈ row, y.2.m_rsrq ≤ st.bestNeighbourRsrq) ∨
      (∃ pre x post, row = pre ++ x :: post ∧
        (row.foldl (loopBody env T) st).bestNeighbourCellId = x.1 ∧
        (row.foldl (loopBody env T) st).bestNeighbourRsrq = x.2.m_rsrq ∧
        st.bestNeighbourRsrq < x.2.m_rsrq ∧
        (∀ y ∈ pre, y.2.m_rsrq < x.2.m_rsrq) ∧
        (∀ y ∈ post, y.2.m_rsrq ≤ x.2.m_rsrq)) := by
  induction row with
  | nil => intro st; left; simp
  | cons hd tl ih =>
    intro st
    simp only [List.foldl_cons]
    by_cases hgt : st.bestNeighbourRsrq < hd.2.m_rsrq
    · obtain ⟨hc, hq⟩ := loopBody_best_of_gt env T st hd hgt
      rcases ih (loopBody env T st hd) with ⟨h1, h2, h3⟩ | ⟨pre, x, post, e, h1, h2, h3, h4, h5⟩
      · right
        refine ⟨[], hd, tl, rfl, h1.trans hc, h2.trans hq, hgt, ?_, ?_⟩
        · intro y hy; cases hy
        · intro y hy; exact hq ▸ h3 y hy
      · right
        rw [hq] at h3
        refine ⟨hd :: pre, x, post, by rw [e]; rfl, h1, h2, lt_trans hgt h3, ?_, h5⟩
        intro y hy
        rcases List.mem_cons.mp hy with hy | hy
        · exact hy ▸ h3
        · exact h4 y hy
    · have hle : hd.2.m_rsrq ≤ st.bestNeighbourRsrq := Nat.not_lt.mp hgt
      obtain ⟨hc, hq⟩ := loopBody_best_of_le env T st hd hle
      rcases ih (loopBody env T st hd) with ⟨h1, h2, h3⟩ | ⟨pre, x, post, e, h1, h2, h3, h4, h5⟩
      · left
        refine ⟨h1.trans hc, h2.trans hq, ?_⟩
        intro y hy
        rcases List.mem_cons.mp hy with hy | hy
        · exact hy ▸ hle
        · exact hq ▸ h3 y hy
      · right
        rw [hq] at h3
        refine ⟨hd :: pre, x, post, by rw [e]; rfl, h1, h2, h3, ?_, h5⟩
        intro y hy
        rcases List.mem_cons.mp hy with hy | hy
        · exact hy ▸ lt_of_le_of_lt hle h3
        · exact h4 y hy

/-- The pair chosen by the loop depends only on the starting pair and on the
row, not on the dataset, the random device, the registry or the time bucket. -/
theorem foldl_loopBody_best_indep (env env' : Env) (T T' : Int) (row : MeasurementRow_t) :
    ∀ st st' : LoopState,
      st.bestNeighbourCellId = st'.bestNeighbourCellId →
      st.bestNeighbourRsrq = st'.bestNeighbourRsrq →
      (row.foldl (loopBody env T) st).bestNeighbourCellId =
          (row.foldl (loopBody env' T') st').bestNeighbourCellId ∧
        (row.foldl (loopBody env T) st).bestNeighbourRsrq =
          (row.foldl (loopBody env' T') st').bestNeighbourRsrq := by
  induction row with
  | nil => intro st st' h1 h2; exact ⟨h1, h2⟩
  | cons hd tl ih =>
    intro st st' h1 h2
    simp only [List.foldl_cons]
    apply ih
    · simp [loopBody, h1, h2]
    · simp [loopBody, h2]

/-- The loop leaves untouched what it does not assign. -/
theorem evaluateHandover_frame (env : Env) (s : Engine) (T : Int) (rnti servingCellRsrq : Nat) :
    (EvaluateHandover env s T rnti servingCellRsrq).1.m_neighbourCellMeasures =
        s.m_neighbourCellMeasures ∧
      (EvaluateHandover env s T rnti servingCellRsrq).1.modelConventional = s.modelConventional := by
  have hl : (loadIfNeeded env s).m_neighbourCellMeasures = s.m_neighbourCellMeasures ∧
      (loadIfNeeded env s).modelConventional = s.modelConventional := by
    unfold loadIfNeeded; split <;> simp
  unfold EvaluateHandover
  simp only []
  split
  · exact hl
  · split_ifs <;> simp [hl]

/-! ## C1: trigger condition -/

theorem loadIfNeeded_frame (env : Env) (s : Engine) :
    (loadIfNeeded env s).m_neighbourCellMeasures = s.m_neighbourCellMeasures ∧
      (loadIfNeeded env s).modelConventional = s.modelConventional ∧
      (loadIfNeeded env s).lockedUntilTime = s.lockedUntilTime ∧
      (loadIfNeeded env s).printableData = s.printableData ∧
      (loadIfNeeded env s).drawn = s.drawn := by
  unfold loadIfNeeded
  split <;> simp

/-- C1 (amended).  For an endpoint with a recorded neighbour map `row`,
`EvaluateHandover` calls the handover executor exactly once, with the cell id
chosen by the selection loop, if and only if that cell id is non-zero (a best
candidate exists), `bestRsrq - servingRsrq ≥ neighbourCellOffset` (in signed
arithmetic) and the engine is not locked at the current bucket
(`lockedUntilTime ≤ bucket`); in every other case the executor is not called. -/
theorem evaluateHandover_trigger_iff (env : Env) (s : Engine) (T : Int)
    (rnti servingCellRsrq : Nat) (row : MeasurementRow_t)
    (hrow : StdMap.find s.m_neighbourCellMeasures rnti = some row) :
    ((EvaluateHandover env s T rnti servingCellRsrq).2 =
          [(rnti, (selectionLoop env T (loadIfNeeded env s) row).bestNeighbourCellId)] ↔
        (0 < (selectionLoop env T (loadIfNeeded env s) row).bestNeighbourCellId ∧
          (env.m_neighbourCellOffset : Int) ≤
            ((selectionLoop env T (loadIfNeeded env s) row).bestNeighbourRsrq : Int) -
              (servingCellRsrq : Int) ∧
          s.lockedUntilTime ≤ T)) ∧
      (¬ (0 < (selectionLoop env T (loadIfNeeded env s) row).bestNeighbourCellId ∧
          (env.m_neighbourCellOffset : Int) ≤
            ((selectionLoop env T (loadIfNeeded env s) row).bestNeighbourRsrq : Int) -
              (servingCellRsrq : Int) ∧
          s.lockedUntilTime ≤ T) →
        (EvaluateHandover env s T rnti servingCellRsrq).2 = []) := by
  obtain ⟨hm, -, hlk, -, -⟩ := loadIfNeeded_frame env s
  have hrow' : StdMap.find (loadIfNeeded env s).m_neighbourCellMeasures rnti = some row := by
    rw [hm]; exact hrow
  by_cases h1 : 0 < (selectionLoop env T (loadIfNeeded env s) row).bestNeighbourCellId
  · by_cases h2 : (env.m_neighbourCellOffset : Int) ≤
        ((selectionLoop env T (loadIfNeeded env s) row).bestNeighbourRsrq : Int) -
          (servingCellRsrq : Int)
    · by_cases h3 : T < s.lockedUntilTime
      · have h3' : ¬ s.lockedUntilTime ≤ T := not_le.mpr h3
        simp [EvaluateHandover, hrow', hlk, h1, h2, h3, h3']
      · have h3' : s.lockedUntilTime ≤ T := not_lt.mp h3
        simp [EvaluateHandover, hrow', hlk, h1, h2, h3, h3']
    · simp [EvaluateHandover, hrow', hlk, h1, h2]
  · simp [EvaluateHandover, hrow', hlk, h1]

/-- Scenario A: serving RSRQ 10, offset 1, single neighbour (cell 7, RSRQ 15),
unlocked: the executor is called once, for endpoint 1 and target cell 7. -/
theorem evaluateHandover_trigger_iff_witness :
    StdMap.find stA.m_neighbourCellMeasures 1 = some [(7, ⟨7, 0, 15⟩)] ∧
      (EvaluateHandover envA stA 100 1 10).2 = [(1, 7)] :=
  ⟨by decide,
    (evaluateHandover_trigger_iff envA stA 100 1 10 [(7, ⟨7, 0, 15⟩)] (by decide)).1.mpr
      (by decide)⟩

/-- C1 as stated fails.  (a) Neighbour map with the single entry (cell 0,
RSRQ 15), serving RSRQ 10, offset 1, unlocked: `15 - 10 ≥ 1` and the engine is
not locked, yet the executor is not called.  (b) Neighbour map with the single
entry (cell 7, RSRQ 0), serving RSRQ 0, offset 0, unlocked: `0 - 0 ≥ 0` and the
engine is not locked, yet the executor is not called. -/
theorem evaluateHandover_trigger_iff_counterexample :
    (StdMap.find stZeroCell.m_neighbourCellMeasures 1 = some [(0, ⟨0, 0, 15⟩)] ∧
      (envA.m_neighbourCellOffset : Int) ≤
        ((selectionLoop envA 100 (loadIfNeeded envA stZeroCell)
          [(0, ⟨0, 0, 15⟩)]).bestNeighbourRsrq : Int) - ((10 : Nat) : Int) ∧
      stZeroCell.lockedUntilTime ≤ 100 ∧
      (EvaluateHandover envA stZeroCell 100 1 10).2 = []) ∧
    (StdMap.find stZeroRsrq.m_neighbourCellMeasures 1 = some [(7, ⟨7, 0, 0⟩)] ∧
      (envZeroOffset.m_neighbourCellOffset : Int) ≤
        ((selectionLoop envZeroOffset 100 (loadIfNeeded envZeroOffset stZeroRsrq)
          [(7, ⟨7, 0, 0⟩)]).bestNeighbourRsrq : Int) - ((0 : Nat) : Int) ∧
      stZeroRsrq.lockedUntilTime ≤ 100 ∧
      (EvaluateHandover envZeroOffset stZeroRsrq 100 1 0).2 = []) := by
  decide

/-! ## C2: candidate selection -/

/-- C2 (amended).  For every neighbour map that holds at least one neighbour
with RSRQ at least 1, the candidate chosen by the selection loop of
`EvaluateHandover` is an entry of the map whose RSRQ is maximal among all
entries, and it is the first such entry in iteration order: every entry before
it has a strictly smaller RSRQ, every entry after it has an RSRQ that is not
greater.  (Every neighbour is valid, `IsValidNeighbour` being constantly
true.) -/
theorem selectionLoop_first_maximal (env : Env) (T : Int) (s : Engine) (row : MeasurementRow_t)
    (h : ∃ y ∈ row, 1 ≤ y.2.m_rsrq) :
    ∃ pre x post, row = pre ++ x :: post ∧
      (selectionLoop env T s row).bestNeighbourCellId = x.1 ∧
      (selectionLoop env T s row).bestNeighbourRsrq = x.2.m_rsrq ∧
      (∀ y ∈ pre, y.2.m_rsrq < x.2.m_rsrq) ∧
      (∀ y ∈ post, y.2.m_rsrq ≤ x.2.m_rsrq) := by
  unfold selectionLoop
  rcases foldl_loopBody_best env T row
      { inputData := s.inputData, printableData := s.printableData, drawn := s.drawn,
        bestNeighbourCellId := 0, bestNeighbourRsrq := 0, dwellLog := [] } with
    ⟨-, -, h3⟩ | ⟨pre, x, post, e, h1, h2, -, h4, h5⟩
  · obtain ⟨y, hy, hq⟩ := h
    have := h3 y hy
    simp only at this
    omega
  · exact ⟨pre, x, post, e, h1, h2, h4, h5⟩

/-- Scenario D: neighbours (7, RSRQ 12) and (9, RSRQ 20), offset 5, serving
RSRQ 10: the loop selects cell 9 and the handover goes to cell 9. -/
theorem selectionLoop_first_maximal_witness :
    (∃ pre x post, ([(7, ⟨7, 0, 12⟩), (9, ⟨9, 0, 20⟩)] : MeasurementRow_t) = pre ++ x :: post ∧
      (selectionLoop envD 100 stD [(7, ⟨7, 0, 12⟩), (9, ⟨9, 0, 20⟩)]).bestNeighbourCellId = x.1 ∧
      (selectionLoop envD 100 stD [(7, ⟨7, 0, 12⟩), (9, ⟨9, 0, 20⟩)]).bestNeighbourRsrq
        = x.2.m_rsrq ∧
      (∀ y ∈ pre, y.2.m_rsrq < x.2.m_rsrq) ∧
      (∀ y ∈ post, y.2.m_rsrq ≤ x.2.m_rsrq)) ∧
    StdMap.find stD.m_neighbourCellMeasures 1 = some [(7, ⟨7, 0, 12⟩), (9, ⟨9, 0, 20⟩)] ∧
    (selectionLoop envD 100 stD [(7, ⟨7, 0, 12⟩), (9, ⟨9, 0, 20⟩)]).bestNeighbourCellId = 9 ∧
    (EvaluateHandover envD stD 100 1 10).2 = [(1, 9)] :=
  ⟨selectionLoop_first_maximal envD 100 stD [(7, ⟨7, 0, 12⟩), (9, ⟨9, 0, 20⟩)]
      ⟨(9, ⟨9, 0, 20⟩), by decide, by decide⟩,
    by decide, by decide, by decide⟩

/-- C2 as stated fails: for the non-empty neighbour map with the single entry
(cell 7, RSRQ 0) the loop ends with cell id 0 and RSRQ 0, and cell 0 is not a
neighbour in the map. -/
theorem selectionLoop_first_maximal_counterexample :
    StdMap.find stZeroRsrq.m_neighbourCellMeasures 1 = some [(7, ⟨7, 0, 0⟩)] ∧
      (selectionLoop envA 100 stZeroRsrq [(7, ⟨7, 0, 0⟩)]).bestNeighbourCellId = 0 ∧
      (selectionLoop envA 100 stZeroRsrq [(7, ⟨7, 0, 0⟩)]).bestNeighbourRsrq = 0 ∧
      0 ∉ StdMap.keys ([(7, ⟨7, 0, 0⟩)] : MeasurementRow_t) := by
  decide

/-! ## Lemmas on the dwell dataset -/

theorem DwellData.get_set_self (d : DwellData) (t bs v : Int) :
    (d.set t bs v).get t bs = some v := by
  simp [DwellData.get, DwellData.set, StdMap.find_insert_self]

theorem DwellData.get_set_ne (d : DwellData) (t bs v t' bs' : Int)
    (hne : ¬ (t' = t ∧ bs' = bs)) :
    (d.set t bs v).get t' bs' = d.get t' bs' := by
  by_cases ht : t' = t
  · subst ht
    have hb : bs' ≠ bs := fun h => hne ⟨rfl, h⟩
    simp only [DwellData.get, DwellData.set, StdMap.find_insert_self, Option.some_bind]
    rw [StdMap.find_insert_ne _ _ _ _ hb]
    cases hf : StdMap.find d t' with
    | none => simp [StdMap.find]
    | some inner => simp
  · simp only [DwellData.get, DwellData.set]
    rw [StdMap.find_insert_ne _ _ _ _ ht]

theorem getRandomNumber_range (raw : Nat) :
    10 ≤ getRandomNumber 10 20 raw ∧ getRandomNumber 10 20 raw ≤ 20 := by
  unfold getRandomNumber
  omega

/-- A lookup stores its result, and the result is never `0`. -/
theorem dwellLookup_result (env : Env) (d : DwellData) (n : Nat) (t bs : Int) :
    (dwellLookup env d n t bs).2.1.get t bs = some (dwellLookup env d n t bs).1 ∧
      (dwellLookup env d n t bs).1 ≠ 0 := by
  unfold dwellLookup
  by_cases h : (d.get t bs).getD 0 = 0
  · have hr := getRandomNumber_range (env.rand n)
    simp only [h, if_true]
    refine ⟨DwellData.get_set_self d t bs _, ?_⟩
    omega
  · simp only [h, if_false]
    refine ⟨?_, h⟩
    cases hg : d.get t bs with
    | none => simp [hg] at h
    | some w => simp

/-- A lookup, at whatever key, keeps every entry that is recorded with a
non-zero value. -/
theorem dwellLookup_preserves (env : Env) (d : DwellData) (n : Nat) (t bs t' bs' w : Int)
    (h : d.get t' bs' = some w) (hw : w ≠ 0) :
    (dwellLookup env d n t bs).2.1.get t' bs' = some w := by
  unfold dwellLookup
  by_cases h0 : (d.get t bs).getD 0 = 0
  · simp only [h0, if_true]
    by_cases hk : t' = t ∧ bs' = bs
    · obtain ⟨h1, h2⟩ := hk
      subst h1; subst h2
      rw [h] at h0
      exact absurd h0 hw
    · rw [DwellData.get_set_ne d t bs _ t' bs' hk]
      exact h
  · simp only [h0, if_false]
    exact h

/-- A lookup of a key recorded with a non-zero value returns it and changes
nothing. -/
theorem dwellLookup_recorded (env : Env) (d : DwellData) (n : Nat) (t bs w : Int)
    (h : d.get t bs = some w) (hw : w ≠ 0) :
    dwellLookup env d n t bs = (w, d, n) := by
  unfold dwellLookup
  simp [h, hw]

/-- Non-zero entries survive any sequence of lookups. -/
theorem dwellLookups_preserves (env : Env) (t' bs' w : Int) (hw : w ≠ 0)
    (ks : List (Int × Int)) :
    ∀ (d : DwellData) (n : Nat), d.get t' bs' = some w →
      (dwellLookups env d n ks).1.get t' bs' = some w := by
  unfold dwellLookups
  induction ks with
  | nil => intro d n h; exact h
  | cons k tl ih =>
    intro d n h
    simp only [List.foldl_cons]
    exact ih _ _ (dwellLookup_preserves env d n k.1 k.2 t' bs' w h hw)

/-! ## C4: dwell lookup -/

/-- C4.  For a key `(bucket, baseStationId)` that is absent from the dataset or
recorded as `0`, the dwell lookup of `EvaluateHandover` returns a value `v`
with `10 ≤ v ≤ 20` whatever the random device yields, stores `v` under that
key, and a later lookup of the same key, also after any sequence `ks` of
lookups of other or the same keys and with any random device, returns the same
`v` and leaves the dataset as it is.  For a key recorded with a non-zero value
the lookup returns that value and leaves the dataset unchanged. -/
theorem dwellLookup_spec (env : Env) (d : DwellData) (n : Nat) (t bs : Int) :
    ((d.get t bs = none ∨ d.get t bs = some 0) →
      10 ≤ (dwellLookup env d n t bs).1 ∧ (dwellLookup env d n t bs).1 ≤ 20 ∧
      (dwellLookup env d n t bs).2.1.get t bs = some (dwellLookup env d n t bs).1 ∧
      ∀ (env' : Env) (n' : Nat) (ks : List (Int × Int)),
        dwellLookup env' (dwellLookups env' (dwellLookup env d n t bs).2.1 n' ks).1
            (dwellLookups env' (dwellLookup env d n t bs).2.1 n' ks).2 t bs =
          ((dwellLookup env d n t bs).1,
            (dwellLookups env' (dwellLookup env d n t bs).2.1 n' ks).1,
            (dwellLookups env' (dwellLookup env d n t bs).2.1 n' ks).2)) ∧
    (∀ w : Int, d.get t bs = some w → w ≠ 0 →
      dwellLookup env d n t bs = (w, d, n) ∧
      (dwellLookup env d n t bs).2.1.get t bs = some w) := by
  constructor
  · intro habs
    have h0 : (d.get t bs).getD 0 = 0 := by
      rcases habs with h | h <;> simp [h]
    obtain ⟨hst, hnz⟩ := dwellLookup_result env d n t bs
    have hval : (dwellLookup env d n t bs).1 = getRandomNumber 10 20 (env.rand n) := by
      unfold dwellLookup; simp [h0]
    have hr := getRandomNumber_range (env.rand n)
    refine ⟨hval ▸ hr.1, hval ▸ hr.2, hst, ?_⟩
    intro env' n' ks
    exact dwellLookup_recorded env' _ _ t bs _
      (dwellLookups_preserves env' t bs _ hnz ks _ n' hst) hnz
  · intro w hw hnz
    have h := dwellLookup_recorded env d n t bs w hw hnz
    exact ⟨h, by rw [h]; exact hw⟩

/-- Lookup of the absent key `(100, 7)` in the empty dataset with a random
device that yields 3: the result is 13, it is stored, and a second lookup
returns 13 again; lookup of a key recorded as 42 returns 42. -/
theorem dwellLookup_spec_witness :
    (10 ≤ (dwellLookup { envA with rand := fun _ => 3 } [] 0 100 7).1 ∧
      (dwellLookup { envA with rand := fun _ => 3 } [] 0 100 7).1 ≤ 20 ∧
      (dwellLookup { envA with rand := fun _ => 3 } [] 0 100 7).2.1.get 100 7 = some 13 ∧
      dwellLookup envA (dwellLookup { envA with rand := fun _ => 3 } [] 0 100 7).2.1 1 100 7
        = (13, [(100, [(7, 13)])], 1)) ∧
    dwellLookup envA [(100, [(7, 42)])] 0 100 7 = (42, [(100, [(7, 42)])], 0) :=
  ⟨⟨((dwellLookup_spec { envA with rand := fun _ => 3 } [] 0 100 7).1 (Or.inl (by decide))).1,
      ((dwellLookup_spec { envA with rand := fun _ => 3 } [] 0 100 7).1 (Or.inl (by decide))).2.1,
      ((dwellLookup_spec { envA with rand := fun _ => 3 } [] 0 100 7).1
        (Or.inl (by decide))).2.2.1,
      ((dwellLookup_spec { envA with rand := fun _ => 3 } [] 0 100 7).1
        (Or.inl (by decide))).2.2.2 envA 1 []⟩,
    ((dwellLookup_spec envA [(100, [(7, 42)])] 0 100 7).2 42 (by decide) (by decide)).1⟩

/-! ## Normal form of an evaluation -/

/-- For an endpoint with neighbour map `row`, the result of `EvaluateHandover`
with its three nested tests merged into one. -/
theorem evaluateHandover_eq (env : Env) (s : Engine) (T : Int) (rnti servingCellRsrq : Nat)
    (row : MeasurementRow_t) (hrow : StdMap.find s.m_neighbourCellMeasures rnti = some row) :
    EvaluateHandover env s T rnti servingCellRsrq =
      if 0 < (selectionLoop env T (loadIfNeeded env s) row).bestNeighbourCellId ∧
          (env.m_neighbourCellOffset : Int) ≤
            ((selectionLoop env T (loadIfNeeded env s) row).bestNeighbourRsrq : Int) -
              (servingCellRsrq : Int) ∧
          s.lockedUntilTime ≤ T then
        ((if s.modelConventional then
            { loadIfNeeded env s with
              inputData := (selectionLoop env T (loadIfNeeded env s) row).inputData
              printableData := (selectionLoop env T (loadIfNeeded env s) row).printableData
              drawn := (selectionLoop env T (loadIfNeeded env s) row).drawn }
          else
            { loadIfNeeded env s with
              inputData := (dwellIndex (selectionLoop env T (loadIfNeeded env s) row).inputData T
                (env.indexToIdStationsMap
                  (selectionLoop env T (loadIfNeeded env s) row).bestNeighbourCellId)).2
              printableData := (selectionLoop env T (loadIfNeeded env s) row).printableData
              drawn := (selectionLoop env T (loadIfNeeded env s) row).drawn
              lockedUntilTime := intAdd T
                (dwellIndex (selectionLoop env T (loadIfNeeded env s) row).inputData T
                  (env.indexToIdStationsMap
                    (selectionLoop env T (loadIfNeeded env s) row).bestNeighbourCellId)).1 }),
          [(rnti, (selectionLoop env T (loadIfNeeded env s) row).bestNeighbourCellId)])
      else
        ({ loadIfNeeded env s with
            inputData := (selectionLoop env T (loadIfNeeded env s) row).inputData
            printableData := (selectionLoop env T (loadIfNeeded env s) row).printableData
            drawn := (selectionLoop env T (loadIfNeeded env s) row).drawn }, []) := by
  obtain ⟨hm, hmc, hlk, -, -⟩ := loadIfNeeded_frame env s
  have hrow' : StdMap.find (loadIfNeeded env s).m_neighbourCellMeasures rnti = some row := by
    rw [hm]; exact hrow
  by_cases h1 : 0 < (selectionLoop env T (loadIfNeeded env s) row).bestNeighbourCellId
  · by_cases h2 : (env.m_neighbourCellOffset : Int) ≤
        ((selectionLoop env T (loadIfNeeded env s) row).bestNeighbourRsrq : Int) -
          (servingCellRsrq : Int)
    · by_cases h3 : T < s.lockedUntilTime
      · have h3' : ¬ s.lockedUntilTime ≤ T := not_le.mpr h3
        simp [EvaluateHandover, hrow', hlk, h1, h2, h3, h3']
      · have h3' : s.lockedUntilTime ≤ T := not_lt.mp h3
        cases hc : s.modelConventional <;>
          simp [EvaluateHandover, hrow', hlk, hmc, hc, h1, h2, h3, h3']
    · simp [EvaluateHandover, hrow', hlk, h1, h2]
  · simp [EvaluateHandover, hrow', hlk, h1]

/-- An evaluation for an endpoint without neighbour map only performs the
lazy load. -/
theorem evaluateHandover_absent (env : Env) (s : Engine) (T : Int) (rnti servingCellRsrq : Nat)
    (hrow : StdMap.find s.m_neighbourCellMeasures rnti = none) :
    EvaluateHandover env s T rnti servingCellRsrq = (loadIfNeeded env s, []) := by
  have hrow' : StdMap.find (loadIfNeeded env s).m_neighbourCellMeasures rnti = none := by
    rw [(loadIfNeeded_frame env s).1]; exact hrow
  simp [EvaluateHandover, hrow']

/-! ## Lemmas on the dwell log of the loop -/

/-- The loop logs one pair per entry of the row, in iteration order. -/
theorem foldl_loopBody_log_keys (env : Env) (T : Int) (row : MeasurementRow_t) :
    ∀ st : LoopState,
      ((row.foldl (loopBody env T) st).dwellLog).map Prod.fst =
        st.dwellLog.map Prod.fst ++ StdMap.keys row := by
  induction row with
  | nil => intro st; simp [StdMap.keys]
  | cons hd tl ih =>
    intro st
    simp only [List.foldl_cons]
    rw [ih]
    simp [loopBody, StdMap.keys]

/-! ## C3: lock window after a predictive handover -/

/-- Both branches of lines 414-429 store the same sample, and the table ends
with the endpoint's row updated at the cell. -/
theorem updateNeighbourMeasurements_eq (s : Engine) (rnti cellId rsrq : Nat) :
    UpdateNeighbourMeasurements s rnti cellId rsrq =
      { s with
        m_neighbourCellMeasures :=
          StdMap.insert
            (match StdMap.find s.m_neighbourCellMeasures rnti with
              | none => StdMap.insert s.m_neighbourCellMeasures rnti []
              | some _ => s.m_neighbourCellMeasures)
            rnti
            (StdMap.insert ((StdMap.find s.m_neighbourCellMeasures rnti).getD []) cellId
              { m_cellId := cellId, m_rsrp := 0, m_rsrq := rsrq }) } := by
  unfold UpdateNeighbourMeasurements
  cases hf : StdMap.find s.m_neighbourCellMeasures rnti with
  | none =>
    simp [hf, StdMap.find_insert_self, StdMap.find]
  | some r =>
    simp only [hf, Option.getD_some]
    cases hc : StdMap.find r cellId <;> simp [hc]

/-- C5.  `UpdateNeighbourMeasurements(e, c, q)` yields a store in which the
map of endpoint `e` exists and sends `c` to the sample
`(cellId = c, rsrp = 0, rsrq = q)`, whatever was stored for `(e, c)` before;
every other cell of `e` and every other endpoint is as before (an endpoint
that was absent counts as the empty map); if the map of `e` was a well-formed
ordered map, so is the new one, and it has at most one entry per cell id.  The
dataset, the lock deadline and the mode are not touched. -/
theorem updateNeighbourMeasurements_spec (s : Engine) (e c q : Nat) :
    (∃ row, StdMap.find (UpdateNeighbourMeasurements s e c q).m_neighbourCellMeasures e
          = some row ∧
        StdMap.find row c = some { m_cellId := c, m_rsrp := 0, m_rsrq := q } ∧
        (∀ c', c' ≠ c →
          StdMap.find row c' =
            StdMap.find ((StdMap.find s.m_neighbourCellMeasures e).getD []) c') ∧
        (StdMap.WF ((StdMap.find s.m_neighbourCellMeasures e).getD []) →
          StdMap.WF row ∧ (StdMap.keys row).Nodup ∧
            ∀ c', List.count c' (StdMap.keys row) ≤ 1)) ∧
      (∀ e', e' ≠ e →
        StdMap.find (UpdateNeighbourMeasurements s e c q).m_neighbourCellMeasures e' =
          StdMap.find s.m_neighbourCellMeasures e') ∧
      (StdMap.WF s.m_neighbourCellMeasures →
        StdMap.WF (UpdateNeighbourMeasurements s e c q).m_neighbourCellMeasures) ∧
      (UpdateNeighbourMeasurements s e c q).inputData = s.inputData ∧
      (UpdateNeighbourMeasurements s e c q).printableData = s.printableData ∧
      (UpdateNeighbourMeasurements s e c q).modelConventional = s.modelConventional ∧
      (UpdateNeighbourMeasurements s e c q).lockedUntilTime = s.lockedUntilTime ∧
      (UpdateNeighbourMeasurements s e c q).drawn = s.drawn := by
  rw [updateNeighbourMeasurements_eq]
  refine ⟨⟨_, StdMap.find_insert_self _ _ _, StdMap.find_insert_self _ _ _, ?_, ?_⟩,
    ?_, ?_, rfl, rfl, rfl, rfl, rfl⟩
  · intro c' hc'
    exact StdMap.find_insert_ne _ _ _ _ hc'
  · intro hwf
    have hwf' := StdMap.wf_insert _ c { m_cellId := c, m_rsrp := 0, m_rsrq := q } hwf
    have hnd := StdMap.wf_nodup _ hwf'
    exact ⟨hwf', hnd, fun c' => List.nodup_iff_count_le_one.mp hnd c'⟩
  · intro e' he'
    simp only
    rw [StdMap.find_insert_ne _ _ _ _ he']
    cases hf : StdMap.find s.m_neighbourCellMeasures e with
    | none => simp only; exact StdMap.find_insert_ne _ _ _ _ he'
    | some r => rfl
  · intro hwf
    simp only
    apply StdMap.wf_insert
    cases hf : StdMap.find s.m_neighbourCellMeasures e with
    | none => simp only; exact StdMap.wf_insert _ _ _ hwf
    | some r => exact hwf

/-- A second report of cell 7 for endpoint 1, with RSRQ 20, replaces the
sample of Scenario A: the row holds the single entry (7, RSRQ 20), which is
well-formed and has one entry for cell 7. -/
theorem updateNeighbourMeasurements_spec_witness :
    stAOverwritten.m_neighbourCellMeasures = [(1, [(7, ⟨7, 0, 20⟩)])] ∧
      ∃ row, StdMap.find (UpdateNeighbourMeasurements stA 1 7 20).m_neighbourCellMeasures 1
          = some row ∧
        StdMap.find row 7 = some { m_cellId := 7, m_rsrp := 0, m_rsrq := 20 } ∧
        (∀ c', c' ≠ 7 →
          StdMap.find row c' =
            StdMap.find ((StdMap.find stA.m_neighbourCellMeasures 1).getD []) c') ∧
        (StdMap.WF ((StdMap.find stA.m_neighbourCellMeasures 1).getD []) →
          StdMap.WF row ∧ (StdMap.keys row).Nodup ∧
            ∀ c', List.count c' (StdMap.keys row) ≤ 1) :=
  ⟨by decide, (updateNeighbourMeasurements_spec stA 1 7 20).1⟩

/-! ## C6: evaluation for an endpoint without neighbour map -/

/-- C6 (amended).  For every engine state, in either mode, and every endpoint
without entry in the measurement store, `EvaluateHandover` does not call the
executor and leaves the measurement store, the lock deadline, the mode, the
observation record and the random device untouched; the dwell dataset is
unchanged too, except that in predictive mode with an empty in-memory
dataset it becomes the parsed content of the dataset file (the lazy load of
lines 291-295, which precedes the neighbour-map test). -/
theorem evaluateHandover_no_neighbours (env : Env) (s : Engine) (T : Int)
    (rnti servingCellRsrq : Nat)
    (hrow : StdMap.find s.m_neighbourCellMeasures rnti = none) :
    (EvaluateHandover env s T rnti servingCellRsrq).2 = [] ∧
      (EvaluateHandover env s T rnti servingCellRsrq).1.m_neighbourCellMeasures
        = s.m_neighbourCellMeasures ∧
      (EvaluateHandover env s T rnti servingCellRsrq).1.lockedUntilTime = s.lockedUntilTime ∧
      (EvaluateHandover env s T rnti servingCellRsrq).1.modelConventional
        = s.modelConventional ∧
      (EvaluateHandover env s T rnti servingCellRsrq).1.printableData = s.printableData ∧
      (EvaluateHandover env s T rnti servingCellRsrq).1.drawn = s.drawn ∧
      (EvaluateHandover env s T rnti servingCellRsrq).1.inputData =
        (if s.modelConventional = false ∧ s.inputData = [] then parseDwellTimeData env.dwellFile
          else s.inputData) ∧
      (s.modelConventional = true ∨ s.inputData ≠ [] →
        EvaluateHandover env s T rnti servingCellRsrq = (s, [])) := by
  rw [evaluateHandover_absent env s T rnti servingCellRsrq hrow]
  obtain ⟨h1, h2, h3, h4, h5⟩ := loadIfNeeded_frame env s
  refine ⟨rfl, h1, h3, h2, h4, h5, ?_, ?_⟩
  · unfold loadIfNeeded
    cases hc : s.modelConventional <;> cases hd : s.inputData <;> simp [hd]
  · intro h
    unfold loadIfNeeded
    cases hc : s.modelConventional <;> cases hd : s.inputData <;> simp_all

/-- Scenario C in disabled mode: endpoint 2 has no neighbour map in the state
of Scenario A; the evaluation returns the state as it was and makes no call. -/
theorem evaluateHandover_no_neighbours_witness :
    EvaluateHandover envA stA 100 2 10 = (stA, []) :=
  (evaluateHandover_no_neighbours envA stA 100 2 10 (by decide)).2.2.2.2.2.2.2
    (Or.inl (by decide))

/-- C6 as stated fails: in predictive mode with the dataset not yet loaded
and a dataset file holding the line `5,3,0.5`, an evaluation for endpoint 1,
which has no neighbour map, changes the dataset from empty to the parsed
file. -/
theorem evaluateHandover_no_neighbours_counterexample :
    StdMap.find stPredictiveStart.m_neighbourCellMeasures 1 = none ∧
      stPredictiveStart.inputData = [] ∧
      (EvaluateHandover envFile stPredictiveStart 100 1 10).1.inputData = [(5, [(3, 30)])] := by
  refine ⟨by decide, by decide, ?_⟩
  rw [evaluateHandover_absent envFile stPredictiveStart 100 1 10 (by decide)]
  have hload : loadIfNeeded envFile stPredictiveStart
      = { stPredictiveStart with inputData := parseDwellTimeData [⟨5, 3, 1 / 2⟩] } := rfl
  rw [hload, parseDwellTimeData_half]

/-! ## C7 and C8: report dispatch -/

/-- C7 (amended).  A serving-cell-degradation report whose serving RSRQ is
strictly above `ServingCellThreshold` is not skipped.  When assertions are
compiled in, the violated assertion of lines 161-162 aborts the run.  When
they are compiled out, the report is evaluated like any other one: the result
is that of `EvaluateHandover` with the reported RSRQ, which leaves the
measurement store unchanged. -/
theorem doReportUeMeas_above_threshold (env : Env) (s : Engine) (T : Int) (rnti : Nat)
    (r : MeasResults) (hid : r.measId = env.m_a2MeasId)
    (habove : env.m_servingCellThreshold < r.rsrqResult) :
    (env.assertEnabled = true → DoReportUeMeas env s T rnti r = none) ∧
      (env.assertEnabled = false →
        DoReportUeMeas env s T rnti r = some (EvaluateHandover env s T rnti r.rsrqResult) ∧
        (EvaluateHandover env s T rnti r.rsrqResult).1.m_neighbourCellMeasures
          = s.m_neighbourCellMeasures) := by
  have hnle : ¬ r.rsrqResult ≤ env.m_servingCellThreshold := Nat.not_le.mpr habove
  constructor
  · intro ha
    simp [DoReportUeMeas, hid, ha, hnle]
  · intro ha
    exact ⟨by simp [DoReportUeMeas, hid, ha], (evaluateHandover_frame env s T rnti _).1⟩

/-- A report with serving RSRQ 31 above the threshold 30 for endpoint 1, whose
neighbour 7 has RSRQ 34: with assertions the run is aborted, without them the
report is evaluated. -/
theorem doReportUeMeas_above_threshold_witness :
    DoReportUeMeas envA stStrong 100 1 reportAbove = none ∧
      DoReportUeMeas envNoAssert stStrong 100 1 reportAbove
        = some (EvaluateHandover envNoAssert stStrong 100 1 31) :=
  ⟨(doReportUeMeas_above_threshold envA stStrong 100 1 reportAbove (by decide) (by decide)).1
      (by decide),
    ((doReportUeMeas_above_threshold envNoAssert stStrong 100 1 reportAbove (by decide)
      (by decide)).2 (by decide)).1⟩

/-- C7 as stated fails: for the report with serving RSRQ 31 above the
threshold 30, with assertions compiled in the engine is aborted, and with
assertions compiled out a handover of endpoint 1 to cell 7 is triggered and
the dwell dataset is changed. -/
theorem doReportUeMeas_above_threshold_counterexample :
    reportAbove.measId = envA.m_a2MeasId ∧
      envA.m_servingCellThreshold < reportAbove.rsrqResult ∧
      DoReportUeMeas envA stStrong 100 1 reportAbove = none ∧
      (DoReportUeMeas envNoAssert stStrong 100 1 reportAbove).map Prod.snd = some [(1, 7)] ∧
      (DoReportUeMeas envNoAssert stStrong 100 1 reportAbove).map (fun x => x.1.inputData)
        = some [(100, [(7, 10)])] ∧
      stStrong.inputData = [] := by
  decide

/-- C8.  A report whose measurement identity is neither `m_a2MeasId` nor
`m_a4MeasId` is ignored by `DoReportUeMeas`: no handover is triggered and the
whole state, in particular the measurement store, the dwell dataset and the
lock deadline, is unchanged. -/
theorem doReportUeMeas_unknown (env : Env) (s : Engine) (T : Int) (rnti : Nat) (r : MeasResults)
    (h2 : r.measId ≠ env.m_a2MeasId) (h4 : r.measId ≠ env.m_a4MeasId) :
    DoReportUeMeas env s T rnti r = some (s, []) := by
  simp [DoReportUeMeas, h2, h4]

/-- A report with identity 9 (A2 is 1, A4 is 2) carrying a neighbour list
leaves the state of Scenario A as it is. -/
theorem doReportUeMeas_unknown_witness :
    DoReportUeMeas envA stA 100 1 reportUnknown = some (stA, []) :=
  doReportUeMeas_unknown envA stA 100 1 reportUnknown (by decide) (by decide)

/-! ## C9: lock deadline and the time it is set at -/

theorem cRound_nonneg (x : ℚ) (hx : 0 ≤ x) : 0 ≤ cRound x := by
  have hnum : 0 ≤ x.num := Rat.num_nonneg.mpr hx
  unfold cRound
  rw [if_pos hnum]
  apply Int.ediv_nonneg <;> omega

theorem selectionLoop_best_indep (env env' : Env) (T : Int) (s s' : Engine)
    (row : MeasurementRow_t) :
    (selectionLoop env T s row).bestNeighbourCellId =
        (selectionLoop env' T s' row).bestNeighbourCellId ∧
      (selectionLoop env T s row).bestNeighbourRsrq =
        (selectionLoop env' T s' row).bestNeighbourRsrq := by
  unfold selectionLoop
  exact foldl_loopBody_best_indep env env' T T row _ _ rfl rfl

/-- C10.  Two runs of `EvaluateHandover` on the same endpoint, measurement
store, serving RSRQ, bucket, mode, lock deadline and configuration that
differ only in the dwell dataset (in memory and on file) and in the values of
the random device select the same best candidate (cell id and RSRQ) from
every neighbour map and make the same calls of the executor: the same
decision to trigger and the same target cell. -/
theorem dwell_noninterference (env : Env) (s : Engine) (T : Int) (rnti servingCellRsrq : Nat)
    (file' : List DwellRow) (rand' : Nat → Nat) (d' : DwellData) (n' : Nat) :
    (∀ row : MeasurementRow_t,
      (selectionLoop env T (loadIfNeeded env s) row).bestNeighbourCellId =
          (selectionLoop { env with dwellFile := file', rand := rand' } T
            (loadIfNeeded { env with dwellFile := file', rand := rand' }
              { s with inputData := d', drawn := n' }) row).bestNeighbourCellId ∧
        (selectionLoop env T (loadIfNeeded env s) row).bestNeighbourRsrq =
          (selectionLoop { env with dwellFile := file', rand := rand' } T
            (loadIfNeeded { env with dwellFile := file', rand := rand' }
              { s with inputData := d', drawn := n' }) row).bestNeighbourRsrq) ∧
      (EvaluateHandover env s T rnti servingCellRsrq).2 =
        (EvaluateHandover { env with dwellFile := file', rand := rand' }
          { s with inputData := d', drawn := n' } T rnti servingCellRsrq).2 := by
  refine ⟨fun row => selectionLoop_best_indep _ _ T _ _ row, ?_⟩
  cases hrow : StdMap.find s.m_neighbourCellMeasures rnti with
  | none =>
    rw [evaluateHandover_absent env s T rnti servingCellRsrq hrow,
      evaluateHandover_absent { env with dwellFile := file', rand := rand' }
        { s with inputData := d', drawn := n' } T rnti servingCellRsrq hrow]
  | some row =>
    obtain ⟨hc, hq⟩ := selectionLoop_best_indep env { env with dwellFile := file', rand := rand' }
      T (loadIfNeeded env s)
      (loadIfNeeded { env with dwellFile := file', rand := rand' }
        { s with inputData := d', drawn := n' }) row
    rw [evaluateHandover_eq env s T rnti servingCellRsrq row hrow,
      evaluateHandover_eq { env with dwellFile := file', rand := rand' }
        { s with inputData := d', drawn := n' } T rnti servingCellRsrq row hrow]
    simp only [hc, hq]
    split_ifs <;> rfl

/-- Scenario D in predictive mode, run once without dataset and with a random
device that yields 0 and once with a dataset line for cell 9 and a random
device that yields 7: both runs hand over to cell 9, and only the lock
deadline differs (110 and 220). -/
theorem dwell_noninterference_witness :
    (EvaluateHandover envD stDPredictive 100 1 10).2 = [(1, 9)] ∧
      (EvaluateHandover envD stDPredictive 100 1 10).2 =
        (EvaluateHandover { envD with dwellFile := [⟨100, 9, 2⟩], rand := fun _ => 7 }
          { stDPredictive with inputData := [(100, [(9, 120)])], drawn := 4 } 100 1 10).2 ∧
      (EvaluateHandover envD stDPredictive 100 1 10).1.lockedUntilTime = 110 ∧
      (EvaluateHandover envDOther
        { stDPredictive with inputData := [(100, [(9, 120)])], drawn := 4 }
          100 1 10).1.lockedUntilTime = 220 :=
  ⟨by decide,
    (dwell_noninterference envD stDPredictive 100 1 10 [⟨100, 9, 2⟩] (fun _ => 7)
      [(100, [(9, 120)])] 4).2,
    by decide, by decide⟩

/-! ## C11: the lock deadline is only changed by a predictive handover -/

theorem updateNeighbourMeasurements_frame (s : Engine) (e c q : Nat) :
    (UpdateNeighbourMeasurements s e c q).lockedUntilTime = s.lockedUntilTime ∧
      (UpdateNeighbourMeasurements s e c q).modelConventional = s.modelConventional ∧
      (UpdateNeighbourMeasurements s e c q).inputData = s.inputData := by
  rw [updateNeighbourMeasurements_eq]
  exact ⟨rfl, rfl, rfl⟩

theorem updateAll_frame (env : Env) (rnti : Nat) (l : List MeasResultEutra) :
    ∀ s s' : Engine, updateAll env rnti s l = some s' →
      s'.lockedUntilTime = s.lockedUntilTime ∧ s'.modelConventional = s.modelConventional ∧
        s'.inputData = s.inputData := by
  induction l with
  | nil =>
    intro s s' h
    simp only [updateAll, Option.some.injEq] at h
    subst h
    exact ⟨rfl, rfl, rfl⟩
  | cons it rest ih =>
    intro s s' h
    unfold updateAll at h
    split at h
    · exact absurd h (by simp)
    · obtain ⟨h1, h2, h3⟩ := ih _ _ h
      obtain ⟨g1, g2, g3⟩ := updateNeighbourMeasurements_frame s rnti it.physCellId it.rsrqResult
      exact ⟨h1.trans g1, h2.trans g2, h3.trans g3⟩

/-- An evaluation in disabled mode, or one that makes no call, keeps the lock
deadline. -/
theorem evaluateHandover_lock (env : Env) (s : Engine) (T : Int) (rnti servingCellRsrq : Nat)
    (h : s.modelConventional = true ∨ (EvaluateHandover env s T rnti servingCellRsrq).2 = []) :
    (EvaluateHandover env s T rnti servingCellRsrq).1.lockedUntilTime = s.lockedUntilTime := by
  obtain ⟨-, -, hlk, -, -⟩ := loadIfNeeded_frame env s
  cases hrow : StdMap.find s.m_neighbourCellMeasures rnti with
  | none =>
    rw [evaluateHandover_absent env s T rnti servingCellRsrq hrow]
    exact hlk
  | some row =>
    rw [evaluateHandover_eq env s T rnti servingCellRsrq row hrow] at h ⊢
    by_cases hcond : 0 < (selectionLoop env T (loadIfNeeded env s) row).bestNeighbourCellId ∧
        (env.m_neighbourCellOffset : Int) ≤
          ((selectionLoop env T (loadIfNeeded env s) row).bestNeighbourRsrq : Int) -
            (servingCellRsrq : Int) ∧
        s.lockedUntilTime ≤ T
    · rw [if_pos hcond] at h ⊢
      rcases h with h | h
      · simp only [h, if_true]
        exact hlk
      · simp at h
    · rw [if_neg hcond]
      exact hlk

/-- A report that is processed keeps the mode, and keeps the lock deadline
when the mode is disabled or no call is made. -/
theorem doReportUeMeas_lock (env : Env) (s s' : Engine) (T : Int) (rnti : Nat)
    (r : MeasResults) (calls : List HandoverCall)
    (h : DoReportUeMeas env s T rnti r = some (s', calls)) :
    s'.modelConventional = s.modelConventional ∧
      (s.modelConventional = true ∨ calls = [] → s'.lockedUntilTime = s.lockedUntilTime) := by
  unfold DoReportUeMeas at h
  split_ifs at h with h1 h2 h3 h4
  · simp only [Option.some.injEq] at h
    have e1 : s' = (EvaluateHandover env s T rnti r.rsrqResult).1 := by rw [h]
    have e2 : calls = (EvaluateHandover env s T rnti r.rsrqResult).2 := by rw [h]
    subst e1
    refine ⟨(evaluateHandover_frame env s T rnti r.rsrqResult).2, ?_⟩
    intro hc
    apply evaluateHandover_lock
    rcases hc with hc | hc
    · exact Or.inl hc
    · exact Or.inr (e2 ▸ hc)
  · cases hu : updateAll env rnti s r.measResultListEutra with
    | none => simp [hu] at h
    | some s1 =>
      simp only [hu, Option.map_some', Option.some.injEq, Prod.mk.injEq] at h
      obtain ⟨g1, g2, -⟩ := updateAll_frame env rnti _ s s1 hu
      rw [← h.1]
      exact ⟨g2, fun _ => g1⟩
  · simp only [Option.some.injEq, Prod.mk.injEq] at h
    rw [← h.1]
    exact ⟨rfl, fun _ => rfl⟩
  · simp only [Option.some.injEq, Prod.mk.injEq] at h
    rw [← h.1]
    exact ⟨rfl, fun _ => rfl⟩

/-- A run in disabled mode keeps the mode and the lock deadline. -/
theorem processEvents_disabled (env : Env) (evs : List ReportEvent) :
    ∀ (s s' : Engine) (calls : List HandoverCall), s.modelConventional = true →
      processEvents env s evs = some (s', calls) →
      s'.modelConventional = true ∧ s'.lockedUntilTime = s.lockedUntilTime := by
  induction evs with
  | nil =>
    intro s s' calls hm h
    simp only [processEvents, Option.some.injEq, Prod.mk.injEq] at h
    rw [← h.1]
    exact ⟨hm, rfl⟩
  | cons ev rest ih =>
    intro s s' calls hm h
    unfold processEvents at h
    cases h1 : DoReportUeMeas env s ev.currTime ev.rnti ev.measResults with
    | none => simp [h1] at h
    | some r1 =>
      obtain ⟨s1, c1⟩ := r1
      cases h2 : processEvents env s1 rest with
      | none => simp [h1, h2] at h
      | some r2 =>
        obtain ⟨s2, c2⟩ := r2
        simp only [h1, h2, Option.some.injEq, Prod.mk.injEq] at h
        obtain ⟨g1, g2⟩ := doReportUeMeas_lock env s s1 _ _ _ c1 h1
        obtain ⟨k1, k2⟩ := ih s1 s2 c2 (g1.trans hm) h2
        rw [← h.1]
        exact ⟨k1, k2.trans (g2 (Or.inl hm))⟩

/-- C11.  For every state and every inbound report that `DoReportUeMeas`
processes (serving-cell evaluation, neighbour update or unknown report), if the
mode is disabled or the report makes no call of the handover executor, then
`lockedUntilTime` is unchanged; the same holds for a neighbour update and for
an evaluation taken alone.  In particular, after any run of reports in disabled
mode from the initial state, `lockedUntilTime` is still `-1` and the engine is
not locked at any bucket `b ≥ 0`. -/
theorem lock_changed_only_by_predictive_handover (env : Env) :
    (∀ (s s' : Engine) (T : Int) (rnti : Nat) (r : MeasResults) (calls : List HandoverCall),
      DoReportUeMeas env s T rnti r = some (s', calls) →
      (s.modelConventional = true ∨ calls = []) →
      s'.lockedUntilTime = s.lockedUntilTime) ∧
    (∀ (s : Engine) (e c q : Nat),
      (UpdateNeighbourMeasurements s e c q).lockedUntilTime = s.lockedUntilTime) ∧
    (∀ (s : Engine) (T : Int) (rnti servingCellRsrq : Nat),
      (s.modelConventional = true ∨ (EvaluateHandover env s T rnti servingCellRsrq).2 = []) →
      (EvaluateHandover env s T rnti servingCellRsrq).1.lockedUntilTime = s.lockedUntilTime) ∧
    (∀ (evs : List ReportEvent) (s' : Engine) (calls : List HandoverCall),
      processEvents env Engine.initial evs = some (s', calls) →
      s'.lockedUntilTime = -1 ∧ ∀ b : Int, 0 ≤ b → ¬ (b < s'.lockedUntilTime)) := by
  refine ⟨?_, ?_, ?_, ?_⟩
  · intro s s' T rnti r calls h hc
    exact (doReportUeMeas_lock env s s' T rnti r calls h).2 hc
  · intro s e c q
    exact (updateNeighbourMeasurements_frame s e c q).1
  · intro s T rnti servingCellRsrq h
    exact evaluateHandover_lock env s T rnti servingCellRsrq h
  · intro evs s' calls h
    obtain ⟨-, hl⟩ := processEvents_disabled env evs Engine.initial s' calls rfl h
    have hl' : s'.lockedUntilTime = -1 := hl
    refine ⟨hl', ?_⟩
    intro b hb
    rw [hl']
    omega

/-- A run in disabled mode from the initial state: neighbours 7 and 9 are
reported, the serving cell degrades and endpoint 1 is handed over to cell 9,
then an unknown report arrives; the lock deadline is still `-1`. -/
theorem lock_changed_only_by_predictive_handover_witness :
    ∃ s' : Engine, processEvents envA Engine.initial eventsDisabled = some (s', [(1, 9)]) ∧
      s'.lockedUntilTime = -1 ∧ ∀ b : Int, 0 ≤ b → ¬ (b < s'.lockedUntilTime) :=
  ⟨_, rfl,
    (lock_changed_only_by_predictive_handover envA).2.2.2 eventsDisabled _ [(1, 9)] rfl⟩

/-! ## C12: dataset round trip -/

theorem foldl_set_get_other (t bs : Int) (rows : List DwellRow) :
    ∀ acc : DwellData, (∀ r ∈ rows, ¬ (t = r.t ∧ bs = r.baseStationId)) →
      (rows.foldl (fun acc row =>
        acc.set row.t row.baseStationId (dwellSeconds row.dwellMinutes)) acc).get t bs
        = acc.get t bs := by
  induction rows with
  | nil => intro acc _; rfl
  | cons r tl ih =>
    intro acc h
    simp only [List.foldl_cons]
    rw [ih _ (fun r' hr' => h r' (List.mem_cons_of_mem _ hr'))]
    exact DwellData.get_set_ne acc r.t r.baseStationId _ t bs (h r (List.mem_cons_self _ _))

/-- The value recorded under a key is the one of the last line of the file
with that key. -/
theorem parseDwellTimeData_get (pre post : List DwellRow) (row : DwellRow)
    (hlast : ∀ r ∈ post, ¬ (row.t = r.t ∧ row.baseStationId = r.baseStationId)) :
    (parseDwellTimeData (pre ++ row :: post)).get row.t row.baseStationId =
      some (dwellSeconds row.dwellMinutes) := by
  unfold parseDwellTimeData
  rw [List.foldl_append, List.foldl_cons, foldl_set_get_other row.t row.baseStationId post _ hlast]
  exact DwellData.get_set_self _ _ _ _

/-- When neither the conversion of the text nor the multiplication rounds, and
the result is an `int` value, line 216 yields the exact `round(m * 60)`. -/
theorem dwellSeconds_exact (m : ℚ) (h1 : toDouble m = m) (h2 : toDouble (m * 60) = m * 60)
    (hlo : intMin ≤ cRound (m * 60)) (hhi : cRound (m * 60) ≤ intMax) :
    dwellSeconds m = cRound (m * 60) := by
  have hr : roundedSeconds m = cRound (m * 60) := by
    unfold roundedSeconds
    rw [h1, h2]
  unfold dwellSeconds
  rw [hr]
  exact doubleToInt_intCast _ hlo hhi

/-- C12 (amended).  For every dataset file of well-formed lines and every line
`(t, s, m)` of it that is the last one with the key `(t, s)`,
`parseDwellTimeData` records at `(t, s)` the `int` that line 216 computes,
`dwellSeconds m`: the text of `m` converted to a `double`, multiplied by 60 in
`double` arithmetic, rounded to the nearest integer (halves away from zero) and
converted to `int`; later lines with the same key have replaced earlier ones.
That value is the exact `round(m * 60)` whenever `m` and `m * 60` are `double`
numbers and `round(m * 60)` is an `int` value.  When the recorded value is not
`0`, a subsequent dwell lookup at `(t, s)`, directly or after any sequence of
other lookups, resolves to exactly that value and leaves the dataset as it is.
When it is `0`, the lookup resolves to a synthesized value in `[10, 20]`
instead. -/
theorem parse_then_lookup (env : Env) (pre post : List DwellRow) (row : DwellRow) (n : Nat)
    (_hwf : ∀ r ∈ pre ++ row :: post, r.WellFormed)
    (hlast : ∀ r ∈ post, ¬ (row.t = r.t ∧ row.baseStationId = r.baseStationId)) :
    (parseDwellTimeData (pre ++ row :: post)).get row.t row.baseStationId =
        some (dwellSeconds row.dwellMinutes) ∧
      (toDouble row.dwellMinutes = row.dwellMinutes →
        toDouble (row.dwellMinutes * 60) = row.dwellMinutes * 60 →
        intMin ≤ cRound (row.dwellMinutes * 60) → cRound (row.dwellMinutes * 60) ≤ intMax →
        dwellSeconds row.dwellMinutes = cRound (row.dwellMinutes * 60)) ∧
      (dwellSeconds row.dwellMinutes ≠ 0 →
        dwellLookup env (parseDwellTimeData (pre ++ row :: post)) n row.t row.baseStationId =
            (dwellSeconds row.dwellMinutes, parseDwellTimeData (pre ++ row :: post), n) ∧
          ∀ (ks : List (Int × Int)),
            (dwellLookup env (dwellLookups env (parseDwellTimeData (pre ++ row :: post)) n ks).1
              (dwellLookups env (parseDwellTimeData (pre ++ row :: post)) n ks).2
              row.t row.baseStationId).1 = dwellSeconds row.dwellMinutes) ∧
      (dwellSeconds row.dwellMinutes = 0 →
        10 ≤ (dwellLookup env (parseDwellTimeData (pre ++ row :: post)) n
          row.t row.baseStationId).1 ∧
        (dwellLookup env (parseDwellTimeData (pre ++ row :: post)) n
          row.t row.baseStationId).1 ≤ 20) := by
  have hget := parseDwellTimeData_get pre post row hlast
  refine ⟨hget, dwellSeconds_exact row.dwellMinutes, ?_, ?_⟩
  · intro hnz
    refine ⟨dwellLookup_recorded env _ n _ _ _ hget hnz, ?_⟩
    intro ks
    rw [dwellLookup_recorded env _ _ _ _ _
      (dwellLookups_preserves env _ _ _ hnz ks _ n hget) hnz]
  · intro hz
    have hval : (dwellLookup env (parseDwellTimeData (pre ++ row :: post)) n
        row.t row.baseStationId).1 = getRandomNumber 10 20 (env.rand n) := by
      unfold dwellLookup
      simp [hget, hz]
    rw [hval]
    exact getRandomNumber_range (env.rand n)

/-- The line `5,3,0.5` is well-formed and yields a resolved dwell time of
exactly 30 seconds. -/
theorem parse_then_lookup_witness :
    DwellRow.WellFormed ⟨5, 3, 1 / 2⟩ ∧
      (parseDwellTimeData [⟨5, 3, 1 / 2⟩]).get 5 3 = some 30 ∧
      (dwellLookup envFile (parseDwellTimeData [⟨5, 3, 1 / 2⟩]) 0 5 3).1 = 30 := by
  have h := parse_then_lookup envFile [] [] ⟨5, 3, 1 / 2⟩ 0
    (by intro r hr; rw [List.mem_singleton.mp hr]; exact wellFormed_half)
    (by intro r hr; cases hr)
  simp only [List.nil_append, dwellSeconds_half] at h
  exact ⟨wellFormed_half, h.1, by rw [(h.2.2.1 (by decide)).1]⟩

/-- C12 as stated fails.  (a) The line `5,3,0` is recorded as
`round(0 * 60) = 0` seconds, and the subsequent lookup at `(5, 3)` resolves to
10, not to 0.  (b) For the line `5,3,1.025` the exact product is `61.5` and
`round(1.025 * 60)` is 62, but line 216 multiplies the `double` nearest to
`1.025`, which gives a product just below `61.5`, and records 61. -/
theorem parse_then_lookup_counterexample :
    (cRound ((0 : ℚ) * 60) = 0 ∧
      (parseDwellTimeData [⟨5, 3, 0⟩]).get 5 3 = some 0 ∧
      (dwellLookup envA (parseDwellTimeData [⟨5, 3, 0⟩]) 0 5 3).1 = 10) ∧
    (cRound ((41 / 40 : ℚ) * 60) = 62 ∧
      (parseDwellTimeData [⟨5, 3, 41 / 40⟩]).get 5 3 = some 61 ∧
      (dwellLookup envA (parseDwellTimeData [⟨5, 3, 41 / 40⟩]) 0 5 3).1 = 61) := by
  rw [parseDwellTimeData_zero, parseDwellTimeData_1025]
  refine ⟨⟨by norm_num [cRound], by decide, by decide⟩,
    ⟨by norm_num [cRound], by decide, by decide⟩⟩

/-! ## C13: the lock is shared by all endpoints -/

theorem updateNeighbourMeasurements_keeps (s : Engine) (e c q e' c' : Nat)
    (h : (sampleAt s.m_neighbourCellMeasures e' c').isSome) :
    (sampleAt (UpdateNeighbourMeasurements s e c q).m_neighbourCellMeasures e' c').isSome := by
  rw [updateNeighbourMeasurements_eq]
  simp only [sampleAt] at h ⊢
  by_cases he : e' = e
  · subst he
    rw [StdMap.find_insert_self]
    simp only [Option.some_bind]
    by_cases hc : c' = c
    · subst hc
      rw [StdMap.find_insert_self]
      rfl
    · rw [StdMap.find_insert_ne _ _ _ _ hc]
      cases hf : StdMap.find s.m_neighbourCellMeasures e' with
      | none => simp [hf] at h
      | some r => simpa [hf] using h
  · rw [StdMap.find_insert_ne _ _ _ _ he]
    cases hf : StdMap.find s.m_neighbourCellMeasures e with
    | none =>
      simp only
      rw [StdMap.find_insert_ne _ _ _ _ he]
      exact h
    | some r => exact h

theorem updateAll_keeps (env : Env) (rnti : Nat) (l : List MeasResultEutra) (e' c' : Nat) :
    ∀ s s' : Engine, updateAll env rnti s l = some s' →
      (sampleAt s.m_neighbourCellMeasures e' c').isSome →
      (sampleAt s'.m_neighbourCellMeasures e' c').isSome := by
  induction l with
  | nil =>
    intro s s' h hp
    simp only [updateAll, Option.some.injEq] at h
    exact h ▸ hp
  | cons it rest ih =>
    intro s s' h hp
    unfold updateAll at h
    split at h
    · exact absurd h (by simp)
    · exact ih _ _ h (updateNeighbourMeasurements_keeps s rnti it.physCellId it.rsrqResult e' c' hp)

theorem doReportUeMeas_keeps (env : Env) (s s' : Engine) (T : Int) (rnti : Nat)
    (r : MeasResults) (calls : List HandoverCall) (e' c' : Nat)
    (h : DoReportUeMeas env s T rnti r = some (s', calls))
    (hp : (sampleAt s.m_neighbourCellMeasures e' c').isSome) :
    (sampleAt s'.m_neighbourCellMeasures e' c').isSome := by
  unfold DoReportUeMeas at h
  split_ifs at h with h1 h2 h3 h4
  · simp only [Option.some.injEq] at h
    have e1 : s' = (EvaluateHandover env s T rnti r.rsrqResult).1 := by rw [h]
    rw [e1, (evaluateHandover_frame env s T rnti r.rsrqResult).1]
    exact hp
  · cases hu : updateAll env rnti s r.measResultListEutra with
    | none => simp [hu] at h
    | some s1 =>
      simp only [hu, Option.map_some', Option.some.injEq, Prod.mk.injEq] at h
      rw [← h.1]
      exact updateAll_keeps env rnti _ e' c' s s1 hu hp
  · simp only [Option.some.injEq, Prod.mk.injEq] at h
    rw [← h.1]
    exact hp
  · simp only [Option.some.injEq, Prod.mk.injEq] at h
    rw [← h.1]
    exact hp

theorem processEvents_keeps (env : Env) (evs : List ReportEvent) (e' c' : Nat) :
    ∀ (s s' : Engine) (calls : List HandoverCall),
      processEvents env s evs = some (s', calls) →
      (sampleAt s.m_neighbourCellMeasures e' c').isSome →
      (sampleAt s'.m_neighbourCellMeasures e' c').isSome := by
  induction evs with
  | nil =>
    intro s s' calls h hp
    simp only [processEvents, Option.some.injEq, Prod.mk.injEq] at h
    rw [← h.1]
    exact hp
  | cons ev rest ih =>
    intro s s' calls h hp
    unfold processEvents at h
    cases h1 : DoReportUeMeas env s ev.currTime ev.rnti ev.measResults with
    | none => simp [h1] at h
    | some r1 =>
      obtain ⟨s1, c1⟩ := r1
      cases h2 : processEvents env s1 rest with
      | none => simp [h1, h2] at h
      | some r2 =>
        obtain ⟨s2, c2⟩ := r2
        simp only [h1, h2, Option.some.injEq, Prod.mk.injEq] at h
        rw [← h.1]
        exact ih s1 s2 c2 h2 (doReportUeMeas_keeps env s s1 _ _ _ c1 e' c' h1 hp)

/-- C14.  No operation removes a measurement.  For every state and every
report that `DoReportUeMeas` processes (serving-cell evaluation, neighbour
update or unknown report), every key (endpoint, cell id) that has a sample in
the measurement store before the report has one after it; the same holds
across any run of reports.  An evaluation (`EvaluateHandover`) leaves the whole
store, sample values included, unchanged. -/
theorem measurements_never_removed (env : Env) :
    (∀ (s s' : Engine) (T : Int) (rnti : Nat) (r : MeasResults) (calls : List HandoverCall)
        (e c : Nat),
      DoReportUeMeas env s T rnti r = some (s', calls) →
      (sampleAt s.m_neighbourCellMeasures e c).isSome →
      (sampleAt s'.m_neighbourCellMeasures e c).isSome) ∧
    (∀ (s : Engine) (T : Int) (rnti servingCellRsrq : Nat),
      (EvaluateHandover env s T rnti servingCellRsrq).1.m_neighbourCellMeasures
        = s.m_neighbourCellMeasures) ∧
    (∀ (evs : List ReportEvent) (s s' : Engine) (calls : List HandoverCall) (e c : Nat),
      processEvents env s evs = some (s', calls) →
      (sampleAt s.m_neighbourCellMeasures e c).isSome →
      (sampleAt s'.m_neighbourCellMeasures e c).isSome) := by
  refine ⟨?_, ?_, ?_⟩
  · intro s s' T rnti r calls e c h hp
    exact doReportUeMeas_keeps env s s' T rnti r calls e c h hp
  · intro s T rnti servingCellRsrq
    exact (evaluateHandover_frame env s T rnti servingCellRsrq).1
  · intro evs s s' calls e c h hp
    exact processEvents_keeps env evs e c s s' calls h hp

/-- The sample of Scenario A for endpoint 1 and cell 7 is still stored after
the run of a neighbour update, an evaluation with handover and an unknown
report. -/
theorem measurements_never_removed_witness :
    (sampleAt stA.m_neighbourCellMeasures 1 7).isSome ∧
      ∃ s' : Engine, processEvents envA stA eventsDisabled = some (s', [(1, 9)]) ∧
        (sampleAt s'.m_neighbourCellMeasures 1 7).isSome :=
  ⟨by decide, _, rfl,
    (measurements_never_removed envA).2.2 eventsDisabled stA _ [(1, 9)] 1 7 rfl (by decide)⟩

/-! ## C15: time bucket -/

/-- The value of `cRound` is within one half of its argument. -/
theorem cRound_bounds (x : ℚ) :
    x - 1 / 2 ≤ (cRound x : ℚ) ∧ (cRound x : ℚ) ≤ x + 1 / 2 := by
  have hdpos : (0 : Int) < 2 * (x.den : Int) := by
    have := x.den_pos
    omega
  have hd : (0 : ℚ) < (x.den : ℚ) := by exact_mod_cast x.den_pos
  have hx : x * (x.den : ℚ) = (x.num : ℚ) := Rat.mul_den_eq_num x
  unfold cRound
  split_ifs with hn
  · have h1 : (2 * x.num + x.den) / (2 * (x.den : Int)) * (2 * (x.den : Int))
        ≤ 2 * x.num + x.den := Int.ediv_mul_le _ (ne_of_gt hdpos)
    have h2 : 2 * x.num + x.den
        < ((2 * x.num + x.den) / (2 * (x.den : Int)) + 1) * (2 * (x.den : Int)) :=
      Int.lt_ediv_add_one_mul_self _ hdpos
    have h1' : (((2 * x.num + x.den) / (2 * (x.den : Int)) : Int) : ℚ) * (2 * (x.den : ℚ))
        ≤ 2 * (x.num : ℚ) + (x.den : ℚ) := by exact_mod_cast h1
    have h2' : 2 * (x.num : ℚ) + (x.den : ℚ)
        < ((((2 * x.num + x.den) / (2 * (x.den : Int)) : Int) : ℚ) + 1) * (2 * (x.den : ℚ)) := by
      exact_mod_cast h2
    constructor
    · apply le_of_mul_le_mul_right _ hd
      nlinarith
    · apply le_of_mul_le_mul_right _ hd
      nlinarith
  · have h1 : (2 * (-x.num) + x.den) / (2 * (x.den : Int)) * (2 * (x.den : Int))
        ≤ 2 * (-x.num) + x.den := Int.ediv_mul_le _ (ne_of_gt hdpos)
    have h2 : 2 * (-x.num) + x.den
        < ((2 * (-x.num) + x.den) / (2 * (x.den : Int)) + 1) * (2 * (x.den : Int)) :=
      Int.lt_ediv_add_one_mul_self _ hdpos
    have h1' : (((2 * (-x.num) + x.den) / (2 * (x.den : Int)) : Int) : ℚ) * (2 * (x.den : ℚ))
        ≤ 2 * (-(x.num : ℚ)) + (x.den : ℚ) := by exact_mod_cast h1
    have h2' : 2 * (-(x.num : ℚ)) + (x.den : ℚ)
        < ((((2 * (-x.num) + x.den) / (2 * (x.den : Int)) : Int) : ℚ) + 1) * (2 * (x.den : ℚ)) := by
      exact_mod_cast h2
    rw [Int.cast_neg]
    constructor
    · apply le_of_mul_le_mul_right _ hd
      nlinarith
    · apply le_of_mul_le_mul_right _ hd
      nlinarith

/-- C15 (amended).  For every non-negative current time `now` and every
positive granularity `g` for which `round(now / g) * g` does not exceed
`intMax`, the time bucket computed at the start of `EvaluateHandover` equals
`round(now / g) * g` (halves away from zero); hence it is an integer multiple
of `g` and differs from `now` by at most `g / 2`, in exact rational
arithmetic. -/
theorem currTimeBucket_spec (now : ℚ) (g : Int) (hnow : 0 ≤ now) (hg : 0 < g)
    (hfit : cRound (now / (g : ℚ)) * g ≤ intMax) :
    currTimeBucket now g = cRound (now / (g : ℚ)) * g ∧
      g ∣ currTimeBucket now g ∧
      |(currTimeBucket now g : ℚ) - now| ≤ (g : ℚ) / 2 := by
  have hgq : (0 : ℚ) < (g : ℚ) := by exact_mod_cast hg
  have hr : 0 ≤ cRound (now / (g : ℚ)) := cRound_nonneg _ (div_nonneg hnow (le_of_lt hgq))
  have hlo : intMin ≤ cRound (now / (g : ℚ)) * g :=
    le_trans (by decide) (mul_nonneg hr (le_of_lt hg))
  have hb : currTimeBucket now g = cRound (now / (g : ℚ)) * g := by
    unfold currTimeBucket
    rw [← Int.cast_mul, doubleToInt_intCast _ hlo hfit]
  obtain ⟨h1, h2⟩ := cRound_bounds (now / (g : ℚ))
  have hnow' : now / (g : ℚ) * (g : ℚ) = now := div_mul_cancel₀ now (ne_of_gt hgq)
  refine ⟨hb, ⟨cRound (now / (g : ℚ)), by rw [hb, mul_comm]⟩, ?_⟩
  rw [hb, Int.cast_mul, abs_le]
  constructor
  · have := mul_le_mul_of_nonneg_right h1 (le_of_lt hgq)
    rw [sub_mul, hnow'] at this
    linarith
  · have := mul_le_mul_of_nonneg_right h2 (le_of_lt hgq)
    rw [add_mul, hnow'] at this
    linarith

/-- At `now = 7.5` seconds with granularity 5 the bucket is
`round(1.5) * 5 = 10`, a multiple of 5 at distance `2.5` from `now`. -/
theorem currTimeBucket_spec_witness :
    currTimeBucket (15 / 2) 5 = 10 ∧
      (5 : Int) ∣ currTimeBucket (15 / 2) 5 ∧
      |(currTimeBucket (15 / 2) 5 : ℚ) - 15 / 2| ≤ ((5 : Int) : ℚ) / 2 := by
  have h3 : cRound ((15 / 2 : ℚ) / ((5 : Int) : ℚ)) = 2 := by norm_num [cRound]
  have h := currTimeBucket_spec (15 / 2) 5 (by norm_num) (by decide) (by rw [h3]; decide)
  exact ⟨by rw [h.1, h3]; rfl, h.2.1, h.2.2⟩

/-- C15 as stated fails when `round(now / g) * g` is not an `int` value: at
`now = 3000000000` seconds with granularity 5 that product is 3000000000,
above `intMax`, and the bucket, an `int`, is `intMin`; it differs from `now`
by more than `g / 2`. -/
theorem currTimeBucket_spec_counterexample :
    (0 : ℚ) ≤ 3000000000 ∧ (0 : Int) < 5 ∧
      cRound ((3000000000 : ℚ) / ((5 : Int) : ℚ)) * 5 = 3000000000 ∧
      intMax < 3000000000 ∧
      currTimeBucket 3000000000 5 = -2147483648 ∧
      ((5 : Int) : ℚ) / 2 < |((currTimeBucket 3000000000 5 : Int) : ℚ) - 3000000000| := by
  have h3 : cRound ((3000000000 : ℚ) / ((5 : Int) : ℚ)) = 600000000 := by norm_num [cRound]
  have hb : currTimeBucket 3000000000 5 = -2147483648 := by
    unfold currTimeBucket
    rw [h3]
    norm_num [doubleToInt, truncToInt, intMin, intMax]
  rw [hb, h3]
  refine ⟨by norm_num, by decide, by decide, by decide, rfl, ?_⟩
  rw [abs_of_neg (by norm_num)]
  norm_num

/-! ## C16: the handover target -/

/-- In a well-formed map an entry is what `find` returns for its key. -/
theorem StdMap.find_of_mem_wf {ν : Type} (row : StdMap Nat ν) (hwf : StdMap.WF row) (c : Nat)
    (m : ν) (h : (c, m) ∈ row) : StdMap.find row c = some m := by
  induction row with
  | nil => cases h
  | cons hd tl ih =>
    obtain ⟨a, b⟩ := hd
    have hcons : (∀ y ∈ StdMap.keys tl, a < y) ∧ StdMap.WF tl := by
      simpa [StdMap.WF, StdMap.keys] using hwf
    rcases List.mem_cons.mp h with h1 | h1
    · obtain ⟨h2, h3⟩ := Prod.mk.inj h1
      simp [StdMap.find, h2, h3]
    · have hk : c ∈ StdMap.keys tl := List.mem_map.mpr ⟨(c, m), h1, rfl⟩
      have hne : a ≠ c := Nat.ne_of_lt (hcons.1 c hk)
      simp only [StdMap.find, hne, if_false]
      exact ih hcons.2 h1

/-- A non-zero cell id left by the loop is the key of an entry of the row with
RSRQ at least 1. -/
theorem selectionLoop_best_mem (env : Env) (T : Int) (s : Engine) (row : MeasurementRow_t)
    (hpos : 0 < (selectionLoop env T s row).bestNeighbourCellId) :
    ∃ m, ((selectionLoop env T s row).bestNeighbourCellId, m) ∈ row ∧
      m.m_rsrq = (selectionLoop env T s row).bestNeighbourRsrq ∧ 1 ≤ m.m_rsrq := by
  unfold selectionLoop at hpos ⊢
  rcases foldl_loopBody_best env T row
      { inputData := s.inputData, printableData := s.printableData, drawn := s.drawn,
        bestNeighbourCellId := 0, bestNeighbourRsrq := 0, dwellLog := [] } with
    ⟨h1, -, -⟩ | ⟨pre, x, post, e, h1, h2, h3, -, -⟩
  · rw [h1] at hpos
    exact absurd hpos (lt_irrefl 0)
  · refine ⟨x.2, ?_, h2.symm, h3⟩
    rw [h1, e]
    exact List.mem_append_right _ (List.mem_cons_self _ _)

/-- C16.  `EvaluateHandover` calls the handover executor at most once.  When it
does, the endpoint id passed is the evaluated endpoint's id, the target cell id
is different from 0 and is a key of the evaluated endpoint's neighbour map, and
the map holds for it a sample with RSRQ at least 1; in a well-formed map, which
has one entry per cell id, that sample is the one stored for the target. -/
theorem handover_target_safe (env : Env) (s : Engine) (T : Int) (rnti servingCellRsrq : Nat) :
    (EvaluateHandover env s T rnti servingCellRsrq).2.length ≤ 1 ∧
      ∀ call ∈ (EvaluateHandover env s T rnti servingCellRsrq).2,
        call.1 = rnti ∧ call.2 ≠ 0 ∧
        ∃ row, StdMap.find s.m_neighbourCellMeasures rnti = some row ∧
          call.2 ∈ StdMap.keys row ∧
          (∃ m, (call.2, m) ∈ row ∧ 1 ≤ m.m_rsrq) ∧
          (StdMap.WF row → ∃ m, StdMap.find row call.2 = some m ∧ 1 ≤ m.m_rsrq) := by
  cases hrow : StdMap.find s.m_neighbourCellMeasures rnti with
  | none =>
    rw [evaluateHandover_absent env s T rnti servingCellRsrq hrow]
    exact ⟨Nat.zero_le _, fun call hc => absurd hc (List.not_mem_nil _)⟩
  | some row =>
    rw [evaluateHandover_eq env s T rnti servingCellRsrq row hrow]
    by_cases hcond : 0 < (selectionLoop env T (loadIfNeeded env s) row).bestNeighbourCellId ∧
        (env.m_neighbourCellOffset : Int) ≤
          ((selectionLoop env T (loadIfNeeded env s) row).bestNeighbourRsrq : Int) -
            (servingCellRsrq : Int) ∧
        s.lockedUntilTime ≤ T
    · rw [if_pos hcond]
      refine ⟨le_refl _, ?_⟩
      intro call hc
      have hcall : call =
          (rnti, (selectionLoop env T (loadIfNeeded env s) row).bestNeighbourCellId) :=
        List.mem_singleton.mp hc
      obtain ⟨m, hm, -, hq⟩ := selectionLoop_best_mem env T (loadIfNeeded env s) row hcond.1
      rw [hcall]
      refine ⟨rfl, Nat.pos_iff_ne_zero.mp hcond.1, row, rfl, ?_, ⟨m, hm, hq⟩, ?_⟩
      · exact List.mem_map.mpr ⟨_, hm, rfl⟩
      · intro hwf
        exact ⟨m, StdMap.find_of_mem_wf row hwf _ m hm, hq⟩
    · rw [if_neg hcond]
      exact ⟨Nat.zero_le _, fun call hc => absurd hc (List.not_mem_nil _)⟩

/-- Scenario D: the single call hands endpoint 1 over to cell 9, a key of its
map with stored RSRQ 20. -/
theorem handover_target_safe_witness :
    (EvaluateHandover envD stD 100 1 10).2 = [(1, 9)] ∧
      ((1, 9) : HandoverCall).1 = 1 ∧ ((1, 9) : HandoverCall).2 ≠ 0 ∧
      ∃ row, StdMap.find stD.m_neighbourCellMeasures 1 = some row ∧
        ((1, 9) : HandoverCall).2 ∈ StdMap.keys row ∧
        (∃ m, (((1, 9) : HandoverCall).2, m) ∈ row ∧ 1 ≤ m.m_rsrq) ∧
        (StdMap.WF row → ∃ m, StdMap.find row ((1, 9) : HandoverCall).2 = some m ∧
          1 ≤ m.m_rsrq) :=
  ⟨by decide, (handover_target_safe envD stD 100 1 10).2 (1, 9) (by decide)⟩

/-! ## C17: signed comparison against the offset -/

/-- C17 (amended).  The comparison against the offset is a signed one.  For
every serving RSRQ, neighbour map and offset, 0 included: if the best
neighbour RSRQ is strictly less than the serving RSRQ (in particular if every
neighbour's RSRQ is), `EvaluateHandover` triggers no handover; and when the
offset is 0, the best neighbour RSRQ equals the serving RSRQ, the cell id
selected with it is not 0 (its RSRQ is then at least 1) and the engine is
unlocked, a handover to the selected cell is triggered. -/
theorem offset_comparison_signed (env : Env) (s : Engine) (T : Int)
    (rnti servingCellRsrq : Nat) (row : MeasurementRow_t)
    (hrow : StdMap.find s.m_neighbourCellMeasures rnti = some row) :
    ((selectionLoop env T (loadIfNeeded env s) row).bestNeighbourRsrq < servingCellRsrq →
        (EvaluateHandover env s T rnti servingCellRsrq).2 = []) ∧
      ((∀ y ∈ row, y.2.m_rsrq < servingCellRsrq) →
        (EvaluateHandover env s T rnti servingCellRsrq).2 = []) ∧
      (env.m_neighbourCellOffset = 0 →
        (selectionLoop env T (loadIfNeeded env s) row).bestNeighbourRsrq = servingCellRsrq →
        0 < (selectionLoop env T (loadIfNeeded env s) row).bestNeighbourCellId →
        s.lockedUntilTime ≤ T →
        (EvaluateHandover env s T rnti servingCellRsrq).2 =
            [(rnti, (selectionLoop env T (loadIfNeeded env s) row).bestNeighbourCellId)] ∧
          1 ≤ (selectionLoop env T (loadIfNeeded env s) row).bestNeighbourRsrq) := by
  have hless : (selectionLoop env T (loadIfNeeded env s) row).bestNeighbourRsrq
      < servingCellRsrq → (EvaluateHandover env s T rnti servingCellRsrq).2 = [] := by
    intro hlt
    rw [evaluateHandover_eq env s T rnti servingCellRsrq row hrow]
    have hn : ¬ (0 < (selectionLoop env T (loadIfNeeded env s) row).bestNeighbourCellId ∧
        (env.m_neighbourCellOffset : Int) ≤
          ((selectionLoop env T (loadIfNeeded env s) row).bestNeighbourRsrq : Int) -
            (servingCellRsrq : Int) ∧
        s.lockedUntilTime ≤ T) := by
      intro h
      have h2 := h.2.1
      omega
    rw [if_neg hn]
  refine ⟨hless, ?_, ?_⟩
  · intro hall
    by_cases hpos : 0 < (selectionLoop env T (loadIfNeeded env s) row).bestNeighbourCellId
    · obtain ⟨m, hm, hq, -⟩ := selectionLoop_best_mem env T (loadIfNeeded env s) row hpos
      apply hless
      rw [← hq]
      exact hall _ hm
    · rw [evaluateHandover_eq env s T rnti servingCellRsrq row hrow]
      rw [if_neg (fun h => hpos h.1)]
  · intro hoff heq hpos hlk
    rw [evaluateHandover_eq env s T rnti servingCellRsrq row hrow]
    have hc : 0 < (selectionLoop env T (loadIfNeeded env s) row).bestNeighbourCellId ∧
        (env.m_neighbourCellOffset : Int) ≤
          ((selectionLoop env T (loadIfNeeded env s) row).bestNeighbourRsrq : Int) -
            (servingCellRsrq : Int) ∧
        s.lockedUntilTime ≤ T := by
      refine ⟨hpos, ?_, hlk⟩
      rw [hoff, heq]
      simp
    rw [if_pos hc]
    obtain ⟨m, -, hq, h1⟩ := selectionLoop_best_mem env T (loadIfNeeded env s) row hpos
    exact ⟨rfl, hq ▸ h1⟩

/-- Scenario A with offset 0: with serving RSRQ 16, above the neighbour's 15,
nothing is triggered (no wrap-around of `15 - 16`); with serving RSRQ 15, equal
to the neighbour's, endpoint 1 is handed over to cell 7. -/
theorem offset_comparison_signed_witness :
    (EvaluateHandover envZeroOffset stA 100 1 16).2 = [] ∧
      (EvaluateHandover envZeroOffset stA 100 1 15).2 = [(1, 7)] :=
  ⟨(offset_comparison_signed envZeroOffset stA 100 1 16 [(7, ⟨7, 0, 15⟩)] (by decide)).1
      (by decide),
    ((offset_comparison_signed envZeroOffset stA 100 1 15 [(7, ⟨7, 0, 15⟩)] (by decide)).2.2
      (by decide) (by decide) (by decide) (by decide)).1⟩

/-- C17 as stated fails in its second part: with offset 0, the single
neighbour (cell 0, RSRQ 5), serving RSRQ 5 and the engine unlocked, the best
neighbour RSRQ equals the serving RSRQ and is at least 1, yet no handover is
triggered. -/
theorem offset_comparison_signed_counterexample :
    StdMap.find stZeroCellFive.m_neighbourCellMeasures 1 = some [(0, ⟨0, 0, 5⟩)] ∧
      envZeroOffset.m_neighbourCellOffset = 0 ∧
      (selectionLoop envZeroOffset 100 (loadIfNeeded envZeroOffset stZeroCellFive)
        [(0, ⟨0, 0, 5⟩)]).bestNeighbourRsrq = 5 ∧
      stZeroCellFive.lockedUntilTime ≤ 100 ∧
      (EvaluateHandover envZeroOffset stZeroCellFive 100 1 5).2 = [] := by
  decide

/-! ## C18: cell id 0 as the "no candidate" value -/

/-- When the row splits at an entry `x` that strictly beats every entry before
it and the starting RSRQ, and is not beaten by any entry after it, the loop
ends with `x`. -/
theorem foldl_loopBody_first_max (env : Env) (T : Int) (pre post : MeasurementRow_t)
    (x : Nat × UeMeasure) (st : LoopState)
    (hst : st.bestNeighbourRsrq < x.2.m_rsrq)
    (hpre : ∀ y ∈ pre, y.2.m_rsrq < x.2.m_rsrq)
    (hpost : ∀ y ∈ post, y.2.m_rsrq ≤ x.2.m_rsrq) :
    ((pre ++ x :: post).foldl (loopBody env T) st).bestNeighbourCellId = x.1 ∧
      ((pre ++ x :: post).foldl (loopBody env T) st).bestNeighbourRsrq = x.2.m_rsrq := by
  rw [List.foldl_append, List.foldl_cons]
  have h1 : (pre.foldl (loopBody env T) st).bestNeighbourRsrq < x.2.m_rsrq := by
    rcases foldl_loopBody_best env T pre st with ⟨-, h, -⟩ | ⟨p1, y, p2, e, -, h, -, -, -⟩
    · rw [h]; exact hst
    · rw [h]
      exact hpre y (by rw [e]; exact List.mem_append_right _ (List.mem_cons_self _ _))
  obtain ⟨hc, hq⟩ := loopBody_best_of_gt env T (pre.foldl (loopBody env T) st) x h1
  rcases foldl_loopBody_best env T post (loopBody env T (pre.foldl (loopBody env T) st) x) with
    ⟨g1, g2, -⟩ | ⟨p1, y, p2, e, -, -, g3, -, -⟩
  · exact ⟨g1.trans hc, g2.trans hq⟩
  · rw [hq] at g3
    have := hpost y (by rw [e]; exact List.mem_append_right _ (List.mem_cons_self _ _))
    omega

/-- C18.  Cell id 0 doubles as the "no candidate" value.  There is an input, an
unlocked engine whose endpoint has a neighbour map containing cell 0 with an
RSRQ not below that of any other neighbour and another neighbour, with
non-zero cell id, whose RSRQ exceeds the serving RSRQ by at least the offset,
for which `EvaluateHandover` triggers no handover.  In general, whenever the
first entry of maximal RSRQ in iteration order has cell id 0, no handover is
triggered, whatever the other neighbours, the serving RSRQ, the offset and the
lock are. -/
theorem zero_cell_sentinel :
    (∃ (env : Env) (s : Engine) (T : Int) (rnti servingCellRsrq : Nat) (row : MeasurementRow_t),
      StdMap.find s.m_neighbourCellMeasures rnti = some row ∧
      s.lockedUntilTime ≤ T ∧
      (∃ m0, StdMap.find row 0 = some m0 ∧ ∀ y ∈ row, y.2.m_rsrq ≤ m0.m_rsrq) ∧
      (∃ y ∈ row, y.1 ≠ 0 ∧
        (env.m_neighbourCellOffset : Int) ≤ (y.2.m_rsrq : Int) - (servingCellRsrq : Int)) ∧
      (EvaluateHandover env s T rnti servingCellRsrq).2 = []) ∧
    (∀ (env : Env) (s : Engine) (T : Int) (rnti servingCellRsrq : Nat)
        (pre post : MeasurementRow_t) (x : Nat × UeMeasure),
      StdMap.find s.m_neighbourCellMeasures rnti = some (pre ++ x :: post) →
      x.1 = 0 →
      (∀ y ∈ pre, y.2.m_rsrq < x.2.m_rsrq) →
      (∀ y ∈ post, y.2.m_rsrq ≤ x.2.m_rsrq) →
      (EvaluateHandover env s T rnti servingCellRsrq).2 = []) := by
  constructor
  · refine ⟨envA, stZeroBest, 100, 1, 10, [(0, ⟨0, 0, 20⟩), (7, ⟨7, 0, 15⟩)],
      by decide, by decide, ⟨⟨0, 0, 20⟩, by decide, by decide⟩,
      ⟨(7, ⟨7, 0, 15⟩), by decide, by decide, by decide⟩, by decide⟩
  · intro env s T rnti servingCellRsrq pre post x hrow hx hpre hpost
    have hzero : (selectionLoop env T (loadIfNeeded env s)
        (pre ++ x :: post)).bestNeighbourCellId = 0 := by
      unfold selectionLoop
      by_cases hq : 0 < x.2.m_rsrq
      · rw [(foldl_loopBody_first_max env T pre post x _ hq hpre hpost).1]
        exact hx
      · rcases foldl_loopBody_best env T (pre ++ x :: post)
            { inputData := (loadIfNeeded env s).inputData,
              printableData := (loadIfNeeded env s).printableData,
              drawn := (loadIfNeeded env s).drawn,
              bestNeighbourCellId := 0, bestNeighbourRsrq := 0, dwellLog := [] } with
          ⟨g1, -, -⟩ | ⟨p1, y, p2, e, -, -, g3, -, -⟩
        · exact g1
        · exfalso
          have hy : y ∈ pre ++ x :: post := by
            rw [e]; exact List.mem_append_right _ (List.mem_cons_self _ _)
          simp only at g3
          rcases List.mem_append.mp hy with h | h
          · have := hpre y h
            omega
          · rcases List.mem_cons.mp h with h | h
            · rw [h] at g3
              exact hq g3
            · have := hpost y h
              omega
    rw [evaluateHandover_eq env s T rnti servingCellRsrq _ hrow]
    rw [if_neg (fun h => by rw [hzero] at h; exact absurd h.1 (lt_irrefl 0))]

/-- Neighbours (cell 0, RSRQ 20) and (cell 7, RSRQ 15), serving RSRQ 10,
offset 1, unlocked: cell 7 alone would qualify, but cell 0 is the first entry
of maximal RSRQ and no handover is triggered. -/
theorem zero_cell_sentinel_witness :
    StdMap.find stZeroBest.m_neighbourCellMeasures 1
        = some ([] ++ (0, ⟨0, 0, 20⟩) :: [(7, ⟨7, 0, 15⟩)]) ∧
      (envA.m_neighbourCellOffset : Int) ≤ ((15 : Nat) : Int) - ((10 : Nat) : Int) ∧
      (EvaluateHandover envA stZeroBest 100 1 10).2 = [] :=
  ⟨by decide, by decide,
    zero_cell_sentinel.2 envA stZeroBest 100 1 10 [] [(7, ⟨7, 0, 15⟩)] (0, ⟨0, 0, 20⟩)
      (by decide) rfl (by intro y hy; cases hy) (by decide)⟩

end A2A4
